import Mathlib

/-!
Verification of the `marlabasicsideshotter` repository.

Part 1 embeds the project-authored game script `sideshot.py`:
the movement enum, the `MinimalSprite` methods `move`, `slide`, `slide2`,
the keyboard handlers of the `playspace` window, and the bullet update /
off-screen culling loop of `playspace.on_update`.

Part 2 embeds the vendored sprite-batching module
`arcade/sprite_list/sprite_list.py`: the `SpriteList` state (CPU-side
mirrors of the GPU vertex-attribute buffers, the sprite list, the
sprite-to-buffer-slot dictionary, the free-slot queue, the index buffer
and both capacities), and its operations `append`, `insert`, `remove`,
`pop`, `__setitem__`, `_next_slot`, `_grow_sprite_buffers`,
`_grow_index_buffer` and `_update_all`.

Python floats are idealised as rationals; sprites are identified by
natural-number ids (CPython object identity); a raised exception is an
explicit `Option PyErr` component next to the state reached at the point
of the raise, so that partial mutation before a raise is visible.
-/

namespace Sideshot

/-- The movement enum of `sideshot.py` (`class MoveEnum(Enum)`). -/
inductive MoveEnum where
  | NONE
  | UP
  | DOWN
  | LEFT
  | RIGHT
deriving DecidableEq, Repr, Fintype

/-- The sprite state used by `MinimalSprite`.  The window reference
`self.game` is passed to `move` as explicit dimensions `gw`/`gh`;
`center_x`, `center_y`, `width`, `height` are the `arcade.Sprite`
geometry attributes and `speed` is the attribute set in
`MinimalSprite.__init__`. -/
structure MinimalSprite where
  center_x : ℚ
  center_y : ℚ
  width : ℚ
  height : ℚ
  speed : ℚ
deriving DecidableEq, Repr

/-- Modelled from the spec: the `arcade.Sprite.right` property,
`center_x + width / 2` (the arcade `Sprite` class itself is not vendored
into the repository). -/
def MinimalSprite.right (s : MinimalSprite) : ℚ := s.center_x + s.width / 2

/-- Modelled from the spec: the `arcade.Sprite.left` property,
`center_x - width / 2`. -/
def MinimalSprite.leftEdge (s : MinimalSprite) : ℚ := s.center_x - s.width / 2

/-- Modelled from the spec: assigning `self.left = v` on an arcade sprite
moves the sprite so that its left edge is `v`, i.e. sets
`center_x := v + width / 2`. -/
def MinimalSprite.setLeft (s : MinimalSprite) (v : ℚ) : MinimalSprite :=
  { s with center_x := v + s.width / 2 }

/-- Method `MinimalSprite.slide` from `sideshot.py` lines 23-27:
`self.speed = 0; self.center_x -= 5; if (self.right == 0): self.left = 1000`. -/
def MinimalSprite.slide (s : MinimalSprite) (_direction : MoveEnum) : MinimalSprite :=
  let s1 : MinimalSprite := { s with speed := 0 }
  let s2 : MinimalSprite := { s1 with center_x := s1.center_x - 5 }
  if s2.right = 0 then s2.setLeft 1000 else s2

/-- Method `MinimalSprite.slide2` from `sideshot.py` lines 30-34; its body is
line-for-line the same as `slide`. -/
def MinimalSprite.slide2 (s : MinimalSprite) (_direction : MoveEnum) : MinimalSprite :=
  let s1 : MinimalSprite := { s with speed := 0 }
  let s2 : MinimalSprite := { s1 with center_x := s1.center_x - 5 }
  if s2.right = 0 then s2.setLeft 1000 else s2

/-- The behaviour of `slide`/`slide2` as worded by claim C8: set `speed`
to 0, decrease `center_x` by 5 regardless of the direction, then
reposition the left edge to 1000 exactly when the right edge equals 0. -/
def MinimalSprite.slideSpec (s : MinimalSprite) (_direction : MoveEnum) : MinimalSprite :=
  let moved : MinimalSprite := { s with speed := 0, center_x := s.center_x - 5 }
  if moved.right = 0 then moved.setLeft 1000 else moved

/-- Method `MinimalSprite.move` from `sideshot.py` lines 42-53: an `elif` chain
guarding each direction by the sprite's current bounding box against the
window dimensions (`self.game.width`/`self.game.height` are `gw`/`gh`). -/
def MinimalSprite.move (gw gh : ℚ) (s : MinimalSprite) (direction : MoveEnum) : MinimalSprite :=
  if direction = MoveEnum.UP ∧ ¬(s.center_y + s.height / 2 > gh) then
    { s with center_y := s.center_y + s.speed }
  else if direction = MoveEnum.DOWN ∧ ¬(s.center_y - s.height / 2 < 0) then
    { s with center_y := s.center_y - s.speed }
  else if direction = MoveEnum.LEFT ∧ ¬(s.center_x - s.width / 2 < 0) then
    { s with center_x := s.center_x - s.speed }
  else if direction = MoveEnum.RIGHT ∧ ¬(s.center_x + s.width / 2 > gw) then
    { s with center_x := s.center_x + s.speed }
  else
    s

/-- The bounding box of the sprite lies within the window, as spelled out
by claim C1: `center_x - width/2 >= 0`, `center_x + width/2 <= gw`,
`center_y - height/2 >= 0`, `center_y + height/2 <= gh`. -/
def inWindow (gw gh : ℚ) (s : MinimalSprite) : Prop :=
  0 ≤ s.center_x - s.width / 2 ∧ s.center_x + s.width / 2 ≤ gw ∧
    0 ≤ s.center_y - s.height / 2 ∧ s.center_y + s.height / 2 ≤ gh

instance (gw gh : ℚ) (s : MinimalSprite) : Decidable (inWindow gw gh s) := by
  unfold inWindow
  infer_instance

/-- The bounding box lies within the window enlarged by `slack` on every
side. -/
def inWindowSlack (gw gh slack : ℚ) (s : MinimalSprite) : Prop :=
  -slack ≤ s.center_x - s.width / 2 ∧ s.center_x + s.width / 2 ≤ gw + slack ∧
    -slack ≤ s.center_y - s.height / 2 ∧ s.center_y + s.height / 2 ≤ gh + slack

instance (gw gh slack : ℚ) (s : MinimalSprite) : Decidable (inWindowSlack gw gh slack s) := by
  unfold inWindowSlack
  infer_instance

/-- The keyboard keys distinguished by the handlers of `playspace`
(`arcade.key.UP/DOWN/LEFT/RIGHT/W/A/S/D/SPACE` are distinct integer
constants; `OTHER` stands for every other key code). -/
inductive Key where
  | UP
  | DOWN
  | LEFT
  | RIGHT
  | W
  | A
  | S
  | D
  | SPACE
  | OTHER
deriving DecidableEq, Repr, Fintype

/-- The effect of `playspace.on_key_press` (lines 128-137) on
`self.direction`.  The separate `if key == SPACE` branch spawns a bullet
and never touches `self.direction`, so it does not appear here. -/
def on_key_press_dir (direction : MoveEnum) (key : Key) : MoveEnum :=
  if key = Key.UP ∨ key = Key.W then MoveEnum.UP
  else if key = Key.DOWN ∨ key = Key.S then MoveEnum.DOWN
  else if key = Key.LEFT ∨ key = Key.A then MoveEnum.LEFT
  else if key = Key.RIGHT ∨ key = Key.D then MoveEnum.RIGHT
  else direction

/-- The effect of `playspace.on_key_release` (lines 159-172) on
`self.direction`: four consecutive (non-`elif`) `if` statements, each
comparing the released key and the currently stored direction. -/
def on_key_release_dir (direction : MoveEnum) (key : Key) : MoveEnum :=
  let d1 := if (key = Key.UP ∨ key = Key.W) ∧ direction = MoveEnum.UP then
    MoveEnum.NONE else direction
  let d2 := if (key = Key.DOWN ∨ key = Key.S) ∧ d1 = MoveEnum.DOWN then
    MoveEnum.NONE else d1
  let d3 := if (key = Key.LEFT ∨ key = Key.A) ∧ d2 = MoveEnum.LEFT then
    MoveEnum.NONE else d2
  if (key = Key.RIGHT ∨ key = Key.D) ∧ d3 = MoveEnum.RIGHT then
    MoveEnum.NONE else d3

/-- The direction key mapping described by claim C3: each arrow key and
its WASD equivalent maps to the corresponding `MoveEnum` value; other
keys map to nothing. -/
def keyDirection : Key → Option MoveEnum
  | Key.UP => some MoveEnum.UP
  | Key.W => some MoveEnum.UP
  | Key.DOWN => some MoveEnum.DOWN
  | Key.S => some MoveEnum.DOWN
  | Key.LEFT => some MoveEnum.LEFT
  | Key.A => some MoveEnum.LEFT
  | Key.RIGHT => some MoveEnum.RIGHT
  | Key.D => some MoveEnum.RIGHT
  | Key.SPACE => none
  | Key.OTHER => none

/-- A bullet sprite as used by `playspace.on_update`: geometry plus the
per-frame velocity (`change_x`, `change_y`) set at spawn time
(`bullet.change_x = BULLET_SPEED`, i.e. 5). -/
structure Bullet where
  center_x : ℚ
  center_y : ℚ
  width : ℚ
  height : ℚ
  change_x : ℚ
  change_y : ℚ
deriving DecidableEq, Repr

/-- Modelled from the spec: `arcade.Sprite.update`, called for every
bullet by `self.bullet_list.update()`, advances the position by the
change values (the arcade `Sprite` class is not vendored into the
repository). -/
def Bullet.update (b : Bullet) : Bullet :=
  { b with center_x := b.center_x + b.change_x, center_y := b.center_y + b.change_y }

/-- Modelled from the spec: the `arcade.Sprite.bottom` property,
`center_y - height / 2`. -/
def Bullet.bottom (b : Bullet) : ℚ := b.center_y - b.height / 2

/-- A bullet whose extent lies entirely outside the window (past the
left, right, bottom or top edge), as worded by claim C2. -/
def offScreen (gw gh : ℚ) (b : Bullet) : Bool :=
  decide (b.center_x + b.width / 2 < 0) || decide (b.center_x - b.width / 2 > gw) ||
    decide (b.center_y + b.height / 2 < 0) || decide (b.center_y - b.height / 2 > gh)

/-- The culling loop of `playspace.on_update` (lines 105-111):
`for bullet in self.bullet_list: if bullet.bottom > self.height:
bullet.remove_from_sprite_lists()`.  Removing the bullet the CPython
list iterator just yielded shifts the remaining elements left while the
iterator index still advances, so the element directly after a removed
bullet is never visited and survives the pass. -/
def cullPass (gh : ℚ) : List Bullet → List Bullet
  | [] => []
  | [b] => if b.bottom > gh then [] else [b]
  | b :: c :: rest =>
    if b.bottom > gh then c :: cullPass gh rest
    else b :: cullPass gh (c :: rest)

/-- The bullet-list part of `playspace.on_update` (lines 95-111): first
`self.bullet_list.update()` moves every bullet by its change values,
then the culling loop removes the visited bullets whose `bottom` exceeds
the window height.  The window height is `self.height = gh`. -/
def on_update_bullets (gh : ℚ) (bullets : List Bullet) : List Bullet :=
  cullPass gh (bullets.map Bullet.update)

end Sideshot

namespace ArcadeSL

/-- The exceptions raised by the embedded `SpriteList` code paths.
Message payloads are immaterial to the claims, so exceptions are
identified by their Python class only. -/
inductive PyErr where
  | valueError
  | indexError
  | keyError
  | exception
deriving DecidableEq, Repr

/-- The per-sprite attributes read by `SpriteList._update_all`
(`sprite._position`, `sprite._width`, `sprite._height`, `sprite._angle`,
`sprite._color`, `sprite._alpha` and the atlas slot of
`sprite._texture`, `none` when the sprite has no texture).  Sprites are
identified by natural-number ids; an attribute map `Nat → SpriteAttr`
stands for dereferencing the sprite object. -/
structure SpriteAttr where
  px : ℚ
  py : ℚ
  w : ℚ
  h : ℚ
  angle : ℚ
  c0 : ℚ
  c1 : ℚ
  c2 : ℚ
  alpha : ℚ
  tex : Option ℚ
deriving DecidableEq, Repr

/-- An attribute map assigning every sprite the zero attributes and no
texture; used for concrete evaluations. -/
def attrs0 : Nat → SpriteAttr :=
  fun _ => SpriteAttr.mk 0 0 0 0 0 0 0 0 0 none

/-- The state of a `SpriteList` (`sprite_list.py` lines 39-134):
`sprite_list` is the Python list of sprites, `sprite_slot` the
insertion-ordered dict from sprite to buffer slot (an association list),
`free_slots` the deque of freed buffer slots (front = oldest),
`sprite_buffer_slots` / `sprite_index_slots` the used-slot counters,
`buf_capacity` / `idx_capacity` the buffer capacities, the five
`*_data` lists the CPU-side mirrors of the GPU attribute buffers,
`sprite_index_data` the index buffer, `spatial_hash` the optional
spatial-hash content (modelled as the list of contained sprites, from
the spec: the `_SpatialHash` class lives in the non-vendored
`spatial_hash.py`), `use_spatial_hash` the constructor argument
(`None`/`True`/`False`), `initialized` the `_initialized` flag and
`deferred` the `_deferred_sprites` set (`none` once consumed by
`_init_deferred`).  The `*_changed` dirty flags and the GPU-side buffer
objects are not modelled: no claim mentions them and they influence no
modelled field. -/
structure SLState where
  sprite_list : List Nat
  sprite_slot : List (Nat × Nat)
  free_slots : List Nat
  sprite_buffer_slots : Nat
  sprite_index_slots : Nat
  buf_capacity : Nat
  idx_capacity : Nat
  pos_data : List ℚ
  size_data : List ℚ
  angle_data : List ℚ
  color_data : List ℚ
  texture_data : List ℚ
  sprite_index_data : List Nat
  spatial_hash : Option (List Nat)
  use_spatial_hash : Option Bool
  initialized : Bool
  deferred : Option (List Nat)
deriving DecidableEq, Repr

/-- Dictionary lookup in the `sprite_slot` association list
(`sprite in self.sprite_slot` / `self.sprite_slot[sprite]`). -/
def alookup : List (Nat × Nat) → Nat → Option Nat
  | [], _ => none
  | (a, b) :: rest, k => if a = k then some b else alookup rest k

/-- Dictionary deletion (`del self.sprite_slot[sprite]`): removes the
first (with unique keys: the only) pair with the given key. -/
def aerase : List (Nat × Nat) → Nat → List (Nat × Nat)
  | [], _ => []
  | (a, b) :: rest, k => if a = k then rest else (a, b) :: aerase rest k

/-- Python `list.index(x)`: the first index holding `x` (only evaluated
when `x` is in the list). -/
def listIndexOf : List Nat → Nat → Nat
  | [], _ => 0
  | a :: rest, x => if a = x then 0 else listIndexOf rest x + 1

/-- Python `list.insert(pos, x)` at a nonnegative clamped position
`pos ≤ length`. -/
def listInsertAt {α : Type} : Nat → α → List α → List α
  | 0, x, l => x :: l
  | _ + 1, x, [] => [x]
  | n + 1, x, a :: l => a :: listInsertAt n x l

/-- The clamped position used by Python `list.insert(i, x)` on a list of
length `n`: a negative `i` counts from the end and clamps at 0, an `i`
beyond the end clamps at `n`. -/
def pyInsertPos (n : Nat) (i : Int) : Nat :=
  if i < 0 then n - (-i).toNat else min i.toNat n

/-- Python `list.insert(i, x)` with full index semantics. -/
def pyInsert {α : Type} (l : List α) (i : Int) (x : α) : List α :=
  listInsertAt (pyInsertPos l.length i) x l

/-- Normalisation of a Python subscript `l[i]` on a list of length `n`:
`some` position for a valid index, `none` for an `IndexError`. -/
def pyIdxPos (n : Nat) (i : Int) : Option Nat :=
  if 0 ≤ i then (if i < (n : Int) then some i.toNat else none)
  else (if -i ≤ (n : Int) then some (n - (-i).toNat) else none)

/-- Python subscript read `l[i]`. -/
def pyGet {α : Type} (l : List α) (i : Int) : Option α :=
  match pyIdxPos l.length i with
  | some p => l.get? p
  | none => none

/-- Python subscript assignment `l[i] = x` (only evaluated on indices
already validated by a preceding read). -/
def pySet {α : Type} (l : List α) (i : Int) (x : α) : List α :=
  match pyIdxPos l.length i with
  | some p => l.set p x
  | none => l

/-- Expression `abs(capacity) or 100` from `SpriteList.__init__` lines 72-74. -/
def initCapacity (capacity : Int) : Nat :=
  if capacity.natAbs = 0 then 100 else capacity.natAbs

/-- The state built by `SpriteList.__init__` (lines 39-127) before the
deferred engine initialisation is attempted: empty sprite list, slot
dict and free-slot deque, zeroed counters, both capacities at
`abs(capacity) or 100`, the CPU-side arrays zero-filled at
`2 x capacity` (position, size), `capacity` (angle, texture),
`4 x capacity` (color) and `capacity` (index buffer), and a spatial
hash exactly when `use_spatial_hash is True`. -/
def newSLState (capacity : Int) (ush : Option Bool) : SLState where
  sprite_list := []
  sprite_slot := []
  free_slots := []
  sprite_buffer_slots := 0
  sprite_index_slots := 0
  buf_capacity := initCapacity capacity
  idx_capacity := initCapacity capacity
  pos_data := List.replicate (2 * initCapacity capacity) 0
  size_data := List.replicate (2 * initCapacity capacity) 0
  angle_data := List.replicate (initCapacity capacity) 0
  color_data := List.replicate (4 * initCapacity capacity) 0
  texture_data := List.replicate (initCapacity capacity) 0
  sprite_index_data := List.replicate (initCapacity capacity) 0
  spatial_hash := if ush = some true then some [] else none
  use_spatial_hash := ush
  initialized := false
  deferred := some []

/-- Method `SpriteList._grow_sprite_buffers` (lines 850-885): return unchanged
while the used sprite-buffer slots stay below the capacity; otherwise
double the capacity and extend every CPU-side array with zeros
(`extend_by` is the old capacity; the GPU-side `orphan` calls are not
modelled). -/
def growSpriteBuffers (s : SLState) : SLState :=
  if s.sprite_buffer_slots < s.buf_capacity then s
  else
    { s with
      buf_capacity := s.buf_capacity * 2,
      pos_data := s.pos_data ++ List.replicate (s.buf_capacity * 2) 0,
      size_data := s.size_data ++ List.replicate (s.buf_capacity * 2) 0,
      angle_data := s.angle_data ++ List.replicate s.buf_capacity 0,
      color_data := s.color_data ++ List.replicate (s.buf_capacity * 4) 0,
      texture_data := s.texture_data ++ List.replicate s.buf_capacity 0 }

/-- Method `SpriteList._grow_index_buffer` (lines 887-913): double the index
capacity and zero-extend the index buffer once the used index slots
reach the capacity. -/
def growIndexBuffer (s : SLState) : SLState :=
  if s.sprite_index_slots < s.idx_capacity then s
  else
    { s with
      idx_capacity := s.idx_capacity * 2,
      sprite_index_data := s.sprite_index_data ++ List.replicate s.idx_capacity 0 }

/-- Method `SpriteList._next_slot` (lines 234-249): pop the oldest entry of the
free-slot deque when one exists, otherwise hand out a fresh slot by
incrementing the used-slot counter and possibly growing the sprite
buffers. -/
def nextSlot (s : SLState) : Nat × SLState :=
  match s.free_slots with
  | slot :: rest => (slot, { s with free_slots := rest })
  | [] =>
    (s.sprite_buffer_slots,
      growSpriteBuffers { s with sprite_buffer_slots := s.sprite_buffer_slots + 1 })

/-- Method `SpriteList._update_all` (lines 546-593): write the sprite's
position, size, angle and color into the CPU-side arrays at its buffer
slot; before engine initialisation add the sprite to the deferred set
instead of touching textures, afterwards write the atlas slot of the
sprite's texture when it has one. -/
def updateAll (attrs : Nat → SpriteAttr) (sp : Nat) (s : SLState) : SLState :=
  match alookup s.sprite_slot sp with
  | none => s
  | some slot =>
    { s with
      pos_data := (s.pos_data.set (slot * 2) (attrs sp).px).set (slot * 2 + 1) (attrs sp).py,
      size_data := (s.size_data.set (slot * 2) (attrs sp).w).set (slot * 2 + 1) (attrs sp).h,
      angle_data := s.angle_data.set slot (attrs sp).angle,
      color_data := ((((s.color_data.set (slot * 4) (attrs sp).c0).set
        (slot * 4 + 1) (attrs sp).c1).set
        (slot * 4 + 2) (attrs sp).c2).set
        (slot * 4 + 3) (attrs sp).alpha),
      texture_data :=
        if s.initialized then
          match (attrs sp).tex with
          | none => s.texture_data
          | some t => s.texture_data.set slot t
        else s.texture_data,
      deferred :=
        if s.initialized then s.deferred
        else s.deferred.map (fun dl => if sp ∈ dl then dl else dl ++ [sp]) }

/-- Modelled from the spec: `_SpatialHash.insert_object_for_box` of the
non-vendored `spatial_hash.py`, guarded by `if self.spatial_hash:` —
appends the sprite to the spatial-hash content. -/
def hashInsert (sp : Nat) (s : SLState) : SLState :=
  match s.spatial_hash with
  | none => s
  | some hsh => { s with spatial_hash := some (hsh ++ [sp]) }

/-- Modelled from the spec: `_SpatialHash.remove_object` of the
non-vendored `spatial_hash.py`, guarded by `if self.spatial_hash:` —
removes the sprite from the spatial-hash content. -/
def hashRemove (sp : Nat) (s : SLState) : SLState :=
  match s.spatial_hash with
  | none => s
  | some hsh => { s with spatial_hash := some (hsh.erase sp) }

/-- Lines 294-298 of `SpriteList.append`: record the freshly allocated
slot in the slot dict, append the sprite to the sprite list and write
its attribute data (`self.sprite_slot[sprite] = slot`,
`self.sprite_list.append(sprite)`, `self._update_all(sprite)`;
`sprite.register_sprite_list` touches only per-sprite state, which is
not part of `SLState`). -/
def slAdd (attrs : Nat → SpriteAttr) (sp slot : Nat) (sA : SLState) : SLState :=
  updateAll attrs sp
    { sA with
      sprite_slot := sA.sprite_slot ++ [(sp, slot)],
      sprite_list := sA.sprite_list ++ [sp] }

/-- Lines 300-305 of `SpriteList.append`: read `idx_slot` as the current
used index-slot count, increment the counter, grow the index buffer if
needed and store the slot at position `idx_slot`. -/
def idxAppend (slot : Nat) (t : SLState) : SLState :=
  let t2 := growIndexBuffer { t with sprite_index_slots := t.sprite_index_slots + 1 }
  { t2 with sprite_index_data := t2.sprite_index_data.set t.sprite_index_slots slot }

/-- The success path of `SpriteList.append` (lines 293-313): allocate a
slot, record the sprite with it, store the slot at the end of the used
index-buffer region, and insert the sprite into the spatial hash when
one exists (the atlas texture loads touch only atlas state). -/
def appendOk (attrs : Nat → SpriteAttr) (sp : Nat) (s : SLState) : SLState :=
  hashInsert sp (idxAppend (nextSlot s).1 (slAdd attrs sp (nextSlot s).1 (nextSlot s).2))

/-- Method `SpriteList.append` (lines 283-313): raise `ValueError` when the
sprite already has a slot, otherwise run the success path. -/
def appendS (attrs : Nat → SpriteAttr) (sp : Nat) (s : SLState) : Option PyErr × SLState :=
  if (alookup s.sprite_slot sp).isSome then (some PyErr.valueError, s)
  else (none, appendOk attrs sp s)

/-- Method `SpriteList.remove` (lines 335-365): look the sprite's slot up
(`ValueError` when absent, state untouched); then remove the sprite from
the list and the slot dict, append the slot to the free-slot deque, and
erase the slot's first occurrence from the index buffer
(`array.remove`), append a trailing 0, decrement the used index-slot
counter and update the spatial hash.  The two inner `if`s mirror the
`ValueError`s that `list.remove` and `array.remove` raise when their
argument is absent; in those cases the function returns the partially
mutated state reached at the raise point. -/
def removeS (sp : Nat) (s : SLState) : Option PyErr × SLState :=
  match alookup s.sprite_slot sp with
  | none => (some PyErr.valueError, s)
  | some slot =>
    if sp ∈ s.sprite_list then
      let s1 := { s with
        sprite_list := s.sprite_list.erase sp,
        sprite_slot := aerase s.sprite_slot sp,
        free_slots := s.free_slots ++ [slot] }
      if slot ∈ s1.sprite_index_data then
        (none, hashRemove sp
          { s1 with
            sprite_index_data := s1.sprite_index_data.erase slot ++ [0],
            sprite_index_slots := s1.sprite_index_slots - 1 })
      else (some PyErr.valueError, s1)
    else (some PyErr.valueError, s)

/-- Lines 390-392 of `SpriteList.insert`: record the freshly allocated
slot in the slot dict and write the sprite's attribute data (the sprite
was already inserted into the sprite list). -/
def slAddIns (attrs : Nat → SpriteAttr) (sp slot : Nat) (sA : SLState) : SLState :=
  updateAll attrs sp { sA with sprite_slot := sA.sprite_slot ++ [(sp, slot)] }

/-- Lines 395-400 of `SpriteList.insert`: increment the used index-slot
counter, grow the index buffer if needed, insert the slot into the index
buffer at the raw index and pop the buffer's last element. -/
def idxInsert (idx : Int) (slot : Nat) (t : SLState) : SLState :=
  let t2 := growIndexBuffer { t with sprite_index_slots := t.sprite_index_slots + 1 }
  { t2 with sprite_index_data := (pyInsert t2.sprite_index_data idx slot).dropLast }

/-- Method `SpriteList.insert` (lines 376-403): raise `ValueError` when the
sprite is already in the list; otherwise insert it into the sprite list
at the (Python-clamped) index, allocate a slot, record the sprite with
it, splice the slot into the index buffer at the raw index
(`_normalize_index_buffer` is a documented no-op) and insert the sprite
into the spatial hash when one exists. -/
def insertS (attrs : Nat → SpriteAttr) (idx : Int) (sp : Nat) (s : SLState) :
    Option PyErr × SLState :=
  if sp ∈ s.sprite_list then (some PyErr.valueError, s)
  else
    let s1 := { s with sprite_list := pyInsert s.sprite_list idx sp }
    (none, hashInsert sp
      (idxInsert idx (nextSlot s1).1 (slAddIns attrs sp (nextSlot s1).1 (nextSlot s1).2)))

/-- Method `SpriteList.pop` (lines 270-281): raise `ValueError` on an empty
list, read the sprite at the (default `-1`) index (`IndexError` when out
of range), and delegate to `remove`. -/
def popS (idx : Int) (s : SLState) : Option PyErr × SLState :=
  if s.sprite_list.length = 0 then (some PyErr.valueError, s)
  else
    match pyGet s.sprite_list idx with
    | none => (some PyErr.indexError, s)
    | some sp => removeS sp s

/-- Method `SpriteList.__setitem__` (lines 200-227): return unchanged when the
sprite is already stored exactly at `index`; raise a plain `Exception`
when it is stored elsewhere; otherwise read the sprite to be replaced
(`IndexError` when out of range), overwrite the list cell, swap the two
sprites in the spatial hash, move the replaced sprite's slot to the new
sprite in the slot dict (`del` then insert) and rewrite the slot's
attribute data. -/
def setitemS (attrs : Nat → SpriteAttr) (idx : Int) (sp : Nat) (s : SLState) :
    Option PyErr × SLState :=
  if sp ∈ s.sprite_list then
    if (listIndexOf s.sprite_list sp : Int) = idx then (none, s)
    else (some PyErr.exception, s)
  else
    match pyGet s.sprite_list idx with
    | none => (some PyErr.indexError, s)
    | some old =>
      let s2 := hashInsert sp (hashRemove old
        { s with sprite_list := pySet s.sprite_list idx sp })
      match alookup s.sprite_slot old with
      | none => (some PyErr.keyError, s2)
      | some slot =>
        (none, updateAll attrs sp
          { s2 with sprite_slot := aerase s2.sprite_slot old ++ [(sp, slot)] })

/-- The `SpriteList` operations quantified over by claims C6 and C10. -/
inductive SLOp where
  | append (sp : Nat)
  | insert (idx : Int) (sp : Nat)
  | remove (sp : Nat)
  | pop (idx : Int)
  | setitem (idx : Int) (sp : Nat)
deriving DecidableEq, Repr

/-- Run one operation; the caller of the Python method observes the
returned state whether or not an exception was raised. -/
def runOp (attrs : Nat → SpriteAttr) : SLOp → SLState → Option PyErr × SLState
  | SLOp.append sp, s => appendS attrs sp s
  | SLOp.insert idx sp, s => insertS attrs idx sp s
  | SLOp.remove sp, s => removeS sp s
  | SLOp.pop idx, s => popS idx s
  | SLOp.setitem idx sp, s => setitemS attrs idx sp s

/-- Run a sequence of operations, continuing from the returned state
(as a Python program catching each exception would). -/
def applyOps (attrs : Nat → SpriteAttr) : List SLOp → SLState → SLState
  | [], s => s
  | op :: ops, s => applyOps attrs ops (runOp attrs op s).2

/-- The operations named by claim C10 (`append`, `insert`, `remove`,
`pop`; item replacement is only in claim C6). -/
def isBasicOp : SLOp → Bool
  | SLOp.setitem _ _ => false
  | _ => true

/-- An `insert` index is safe when it lies between 0 and the current
number of sprites, so that the sprite-list position and the index-buffer
position agree. -/
def safeOp (op : SLOp) (s : SLState) : Bool :=
  match op with
  | SLOp.insert idx _ => decide (0 ≤ idx) && decide (idx ≤ (s.sprite_list.length : Int))
  | _ => true

/-- Every operation of the sequence is safe in the state it runs in. -/
def safeOps (attrs : Nat → SpriteAttr) : List SLOp → SLState → Bool
  | [], _ => true
  | op :: ops, s => safeOp op s && safeOps attrs ops (runOp attrs op s).2

/-- Modelled from the spec: `SpriteList._init_deferred` obtains the
window context, creates the GPU-side buffers (not part of `SLState`),
marks the list initialised and consumes the deferred-sprite set. -/
def initDeferred (s : SLState) : SLState :=
  { s with initialized := true, deferred := none }

/-- Constructor `SpriteList.__init__` lines 129-134 with the deferred engine
initialisation: `engineOk` stands for `get_window()` (and the GPU setup)
succeeding; when it fails, the exception is caught and printed — the
returned output list holds the printed exception — and the
still-uninitialised state is returned. -/
def newSpriteList (capacity : Int) (ush : Option Bool) (engineOk : Bool) :
    SLState × List PyErr :=
  let s := newSLState capacity ush
  if engineOk then (initDeferred s, []) else (s, [PyErr.exception])

/-- The invariant claimed by C10: the number of sprites in the list, the
number of entries in the sprite-to-slot map and the used index-buffer
slot count agree, and the buffer slots assigned in the slot map are
pairwise distinct. -/
def C10Inv (s : SLState) : Prop :=
  s.sprite_list.length = s.sprite_slot.length ∧
    s.sprite_slot.length = s.sprite_index_slots ∧
    (s.sprite_slot.map Prod.snd).Nodup

instance (s : SLState) : Decidable (C10Inv s) := by
  unfold C10Inv
  infer_instance

/-- The CPU-side array-length invariant claimed by C5: position and size
hold `2 x capacity` entries, angle and texture `capacity` entries, and
color `4 x capacity` entries. -/
def LenInv (s : SLState) : Prop :=
  s.pos_data.length = 2 * s.buf_capacity ∧
    s.size_data.length = 2 * s.buf_capacity ∧
    s.angle_data.length = s.buf_capacity ∧
    s.color_data.length = 4 * s.buf_capacity ∧
    s.texture_data.length = s.buf_capacity

/-- The full reachable-state invariant of a `SpriteList`, strong enough
to be preserved by safe operation sequences: capacities are positive and
bound the used-slot counters, the arrays have their capacity-determined
lengths, the sprite list and the slot-dict keys carry the same sprites
without duplicates and in equal number, the used index-slot counter
matches, the assigned slots are pairwise distinct, disjoint from the
free-slot deque, all allocated below the used-slot counter and all
present in the used front region of the index buffer, and the spatial
hash (when present) holds exactly the listed sprites, without
duplicates. -/
structure Inv (s : SLState) : Prop where
  cap_pos : 1 ≤ s.buf_capacity
  icap_pos : 1 ≤ s.idx_capacity
  bslots_le : s.sprite_buffer_slots ≤ s.buf_capacity
  islots_le : s.sprite_index_slots ≤ s.idx_capacity
  pos_len : s.pos_data.length = 2 * s.buf_capacity
  size_len : s.size_data.length = 2 * s.buf_capacity
  angle_len : s.angle_data.length = s.buf_capacity
  color_len : s.color_data.length = 4 * s.buf_capacity
  tex_len : s.texture_data.length = s.buf_capacity
  idx_len : s.sprite_index_data.length = s.idx_capacity
  list_nodup : s.sprite_list.Nodup
  keys_nodup : (s.sprite_slot.map Prod.fst).Nodup
  mem_iff : ∀ x, x ∈ s.sprite_list ↔ x ∈ s.sprite_slot.map Prod.fst
  count_list : s.sprite_list.length = s.sprite_slot.length
  count_idx : s.sprite_slot.length = s.sprite_index_slots
  used_nodup : (s.sprite_slot.map Prod.snd).Nodup
  free_nodup : s.free_slots.Nodup
  used_free_disj : ∀ n, n ∈ s.sprite_slot.map Prod.snd → n ∉ s.free_slots
  used_lt : ∀ n ∈ s.sprite_slot.map Prod.snd, n < s.sprite_buffer_slots
  free_lt : ∀ n ∈ s.free_slots, n < s.sprite_buffer_slots
  used_in_front : ∀ n ∈ s.sprite_slot.map Prod.snd,
    n ∈ s.sprite_index_data.take s.sprite_index_slots
  hash_nodup : ∀ hsh, s.spatial_hash = some hsh → hsh.Nodup
  hash_mem : ∀ hsh, s.spatial_hash = some hsh → ∀ x, x ∈ hsh ↔ x ∈ s.sprite_list

/-- The operation sequence refuting claims C6 and C10 as stated: two
appends, an `insert` whose index 1000 lies past the index buffer (so the
slot value is inserted at the buffer's end and immediately popped off
again), then a `remove` of the inserted sprite, whose `array.remove`
raises `ValueError` in mid-removal. -/
def badOps : List SLOp :=
  [SLOp.append 1, SLOp.append 2, SLOp.insert 1000 3, SLOp.remove 3]

end ArcadeSL

namespace Sideshot

/-- Claim C8: `MinimalSprite.slide2` is extensionally equal to
`MinimalSprite.slide`, and both set `speed` to 0, decrease `center_x` by
5 regardless of the direction argument, then reposition the left edge to
1000 exactly when the right edge equals 0 (the behaviour `slideSpec`
worded by the claim). -/
theorem claim_C8_slide2_eq_slide :
    ∀ (s : MinimalSprite) (d : MoveEnum),
      s.slide2 d = s.slide d ∧ s.slide d = s.slideSpec d := by
  intro s d
  constructor
  · rfl
  · rfl

/-- Claim C1 counterexample: with the actual window size 1000 × 500, the
10 × 10 sprite centred at (300, 495) with speed 3 has its bounding box
inside the window, yet after `move UP` its top edge is 503 > 500: the
box no longer lies within the window, refuting the claim that movement
is clamped to the window bounds. -/
theorem claim_C1_counterexample :
    inWindow 1000 500 (MinimalSprite.mk 300 495 10 10 3) ∧
      ¬ inWindow 1000 500
        ((MinimalSprite.mk 300 495 10 10 3).move 1000 500 MoveEnum.UP) := by
  constructor
  · unfold inWindow
    norm_num
  · unfold MinimalSprite.move inWindow
    norm_num

/-- Claim C1 amended: for every direction and every starting position
whose bounding box lies within the window, if the sprite speed is
nonnegative then after `MinimalSprite.move` the bounding box lies within
the window enlarged by `speed` on every side — each guard blocks a
movement only once the current box already touches past that edge, so a
single step can overshoot a window bound by at most `speed`. -/
theorem claim_C1_amended :
    ∀ (gw gh : ℚ) (s : MinimalSprite) (d : MoveEnum),
      0 ≤ s.speed → inWindow gw gh s →
        inWindowSlack gw gh s.speed (s.move gw gh d) := by
  intro gw gh s d hsp h
  obtain ⟨h1, h2, h3, h4⟩ := h
  unfold MinimalSprite.move inWindowSlack
  split_ifs with c1 c2 c3 c4
  · obtain ⟨-, g⟩ := c1
    push_neg at g
    dsimp only
    exact ⟨by linarith, by linarith, by linarith, by linarith⟩
  · obtain ⟨-, g⟩ := c2
    push_neg at g
    dsimp only
    exact ⟨by linarith, by linarith, by linarith, by linarith⟩
  · obtain ⟨-, g⟩ := c3
    push_neg at g
    dsimp only
    exact ⟨by linarith, by linarith, by linarith, by linarith⟩
  · obtain ⟨-, g⟩ := c4
    push_neg at g
    dsimp only
    exact ⟨by linarith, by linarith, by linarith, by linarith⟩
  · exact ⟨by linarith, by linarith, by linarith, by linarith⟩

/-- Claim C1 amended, witnessed at the counterexample input: the sprite
centred at (300, 495) stays within the 1000 × 500 window enlarged by its
speed 3 after moving up. -/
theorem claim_C1_witness :
    inWindowSlack 1000 500 (3 : ℚ)
      ((MinimalSprite.mk 300 495 10 10 3).move 1000 500 MoveEnum.UP) :=
  claim_C1_amended 1000 500 (MinimalSprite.mk 300 495 10 10 3) MoveEnum.UP
    (by norm_num) (by unfold inWindow; norm_num)

/-- Claim C3: every press of an arrow key or its WASD equivalent makes
`on_key_press` store the corresponding direction, and `on_key_release`
resets the stored direction to `NONE` exactly when the released key maps
to the currently stored direction, leaving it unchanged otherwise. -/
theorem claim_C3_key_handlers :
    ∀ (direction : MoveEnum) (key : Key),
      (∀ m : MoveEnum, keyDirection key = some m →
        on_key_press_dir direction key = m) ∧
      on_key_release_dir direction key =
        (if keyDirection key = some direction then MoveEnum.NONE else direction) := by
  decide

/-- Claim C3 witnessed at concrete keys: pressing W from rest stores UP,
and releasing W while moving up resets the direction to NONE. -/
theorem claim_C3_witness :
    on_key_press_dir MoveEnum.NONE Key.W = MoveEnum.UP ∧
      on_key_release_dir MoveEnum.UP Key.W = MoveEnum.NONE := by
  refine ⟨(claim_C3_key_handlers MoveEnum.NONE Key.W).1 MoveEnum.UP rfl, ?_⟩
  have h := (claim_C3_key_handlers MoveEnum.UP Key.W).2
  simpa using h

/-- Claim C2, evaluated at the failing input: in the 1000 × 500 window a
single 10 × 10 bullet at (2000, 100) moving right with `change_x = 5`
(`BULLET_SPEED`) is entirely past the right window edge, yet
`on_update` keeps it in the bullet list, because the culling loop only
tests `bullet.bottom > self.height` (the top edge) while bullets travel
rightward. -/
theorem claim_C2_bug_eval :
    on_update_bullets 500 [Bullet.mk 2000 100 10 10 5 0] =
        [Bullet.mk 2005 100 10 10 5 0] ∧
      offScreen 1000 500 (Bullet.mk 2005 100 10 10 5 0) = true := by
  constructor
  · unfold on_update_bullets cullPass Bullet.update Bullet.bottom
    norm_num
  · unfold offScreen
    norm_num

end Sideshot

namespace ArcadeSL

theorem take_set_succ {α : Type} :
    ∀ (l : List α) (i : Nat) (a : α), i < l.length →
      (l.set i a).take (i + 1) = l.take i ++ [a]
  | [], i, _, h => by simp at h
  | _ :: _, 0, _, _ => by simp
  | x :: xs, i + 1, a, h => by
    have ih := take_set_succ xs i a (by simpa using h)
    simp [List.set_cons_succ, List.take_succ_cons, ih]

theorem take_append_le {α : Type} :
    ∀ (n : Nat) (l1 l2 : List α), n ≤ l1.length → (l1 ++ l2).take n = l1.take n
  | 0, _, _, _ => by simp
  | n + 1, [], _, h => by simp at h
  | n + 1, x :: xs, l2, h => by
    have ih := take_append_le n xs l2 (by simpa using h)
    simp [List.take_succ_cons, ih]

theorem length_listInsertAt {α : Type} :
    ∀ (n : Nat) (x : α) (l : List α), (listInsertAt n x l).length = l.length + 1
  | 0, _, _ => rfl
  | _ + 1, _, [] => rfl
  | n + 1, x, _ :: xs => by
    simp [listInsertAt, length_listInsertAt n x xs]

theorem mem_listInsertAt {α : Type} :
    ∀ (n : Nat) (x y : α) (l : List α), y ∈ listInsertAt n x l ↔ y = x ∨ y ∈ l
  | 0, _, _, _ => by simp [listInsertAt]
  | _ + 1, _, _, [] => by simp [listInsertAt]
  | n + 1, x, y, a :: xs => by
    simp [listInsertAt, mem_listInsertAt n x y xs]
    tauto

theorem nodup_listInsertAt {α : Type} :
    ∀ (n : Nat) (x : α) (l : List α), x ∉ l → l.Nodup → (listInsertAt n x l).Nodup
  | 0, _, _, hx, hl => by simp [listInsertAt, hx, hl]
  | _ + 1, _, [], _, _ => by simp [listInsertAt]
  | n + 1, x, a :: xs, hx, hl => by
    simp only [listInsertAt, List.nodup_cons]
    simp only [List.mem_cons, not_or] at hx
    simp only [List.nodup_cons] at hl
    refine ⟨?_, nodup_listInsertAt n x xs hx.2 hl.2⟩
    rw [mem_listInsertAt]
    rintro (rfl | h)
    · exact hx.1 rfl
    · exact hl.1 h

theorem listInsertAt_append {α : Type} :
    ∀ (n : Nat) (x : α) (l1 l2 : List α), n ≤ l1.length →
      listInsertAt n x (l1 ++ l2) = listInsertAt n x l1 ++ l2
  | 0, _, _, _, _ => rfl
  | n + 1, _, [], _, h => by simp at h
  | n + 1, x, a :: xs, l2, h => by
    have ih := listInsertAt_append n x xs l2 (by simpa using h)
    simp [listInsertAt, ih]

theorem listInsertAt_length_eq_append {α : Type} :
    ∀ (l : List α) (x : α), listInsertAt l.length x l = l ++ [x]
  | [], _ => rfl
  | a :: xs, x => by
    simp [listInsertAt, listInsertAt_length_eq_append xs x]

theorem alookup_append (ps qs : List (Nat × Nat)) (k : Nat) :
    alookup (ps ++ qs) k =
      match alookup ps k with
      | some v => some v
      | none => alookup qs k := by
  induction ps with
  | nil => rfl
  | cons p rest ih =>
    by_cases h : p.1 = k
    · simp [alookup, h]
    · simpa [alookup, h] using ih

theorem alookup_isSome_iff (ps : List (Nat × Nat)) (k : Nat) :
    (alookup ps k).isSome ↔ k ∈ ps.map Prod.fst := by
  induction ps with
  | nil => simp [alookup]
  | cons p rest ih =>
    by_cases h : p.1 = k
    · simp [alookup, h]
    · simp [alookup, h, ih, Ne.symm h]

theorem alookup_eq_none_iff (ps : List (Nat × Nat)) (k : Nat) :
    alookup ps k = none ↔ k ∉ ps.map Prod.fst := by
  rw [← alookup_isSome_iff, Option.isSome_iff_exists]
  cases alookup ps k <;> simp

theorem mem_of_alookup (ps : List (Nat × Nat)) (k v : Nat)
    (h : alookup ps k = some v) : (k, v) ∈ ps := by
  induction ps with
  | nil => simp [alookup] at h
  | cons p rest ih =>
    obtain ⟨a, b⟩ := p
    by_cases hk : a = k
    · subst hk
      simp only [alookup, if_pos rfl] at h
      cases h
      exact List.mem_cons_self _ _
    · simp only [alookup, if_neg hk] at h
      exact List.mem_cons_of_mem _ (ih h)

theorem aerase_sublist (ps : List (Nat × Nat)) (k : Nat) :
    (aerase ps k).Sublist ps := by
  induction ps with
  | nil => simp [aerase]
  | cons p rest ih =>
    obtain ⟨a, b⟩ := p
    by_cases h : a = k
    · simp [aerase, h]
    · simpa [aerase, h] using ih.cons₂ (a, b)

theorem map_fst_aerase (ps : List (Nat × Nat)) (k : Nat) :
    (aerase ps k).map Prod.fst = (ps.map Prod.fst).erase k := by
  induction ps with
  | nil => simp [aerase]
  | cons p rest ih =>
    obtain ⟨a, b⟩ := p
    by_cases h : a = k
    · simp [aerase, h]
    · simp only [aerase, if_neg h, List.map_cons]
      rw [List.erase_cons_tail (by simpa using h), ih]

theorem length_aerase (ps : List (Nat × Nat)) (k v : Nat)
    (h : alookup ps k = some v) : (aerase ps k).length + 1 = ps.length := by
  induction ps with
  | nil => simp [alookup] at h
  | cons p rest ih =>
    by_cases hk : p.1 = k
    · obtain ⟨a, b⟩ := p
      simp only at hk
      simp [aerase, hk]
    · simp only [alookup, if_neg hk] at h
      obtain ⟨a, b⟩ := p
      simp only at hk
      simp only [aerase, if_neg hk, List.length_cons]
      have := ih h
      omega

theorem slot_not_mem_snd_aerase (ps : List (Nat × Nat)) (k v : Nat)
    (hnd : (ps.map Prod.snd).Nodup) (h : alookup ps k = some v) :
    v ∉ (aerase ps k).map Prod.snd := by
  induction ps with
  | nil => simp [alookup] at h
  | cons p rest ih =>
    obtain ⟨a, b⟩ := p
    simp only [List.map_cons, List.nodup_cons] at hnd
    by_cases hk : a = k
    · simp only [alookup, if_pos hk] at h
      cases h
      simpa [aerase, hk] using hnd.1
    · simp only [alookup, if_neg hk] at h
      simp only [aerase, if_neg hk, List.map_cons, List.mem_cons, not_or]
      constructor
      · rintro rfl
        exact hnd.1 (List.mem_map_of_mem Prod.snd (mem_of_alookup rest k v h))
      · exact ih hnd.2 h

theorem snd_aerase_subset (ps : List (Nat × Nat)) (k : Nat) :
    ∀ n, n ∈ (aerase ps k).map Prod.snd → n ∈ ps.map Prod.snd :=
  fun _ hn => ((aerase_sublist ps k).map Prod.snd).subset hn

theorem pyGet_mem {α : Type} (l : List α) (i : Int) (x : α)
    (h : pyGet l i = some x) : x ∈ l := by
  unfold pyGet at h
  cases hp : pyIdxPos l.length i with
  | none => rw [hp] at h; cases h
  | some p =>
    rw [hp] at h
    exact List.get?_mem h

theorem pyInsert_of_nonneg_le {α : Type} (l : List α) (i : Int) (x : α)
    (h0 : 0 ≤ i) (hle : i ≤ (l.length : Int)) :
    pyInsert l i x = listInsertAt i.toNat x l := by
  unfold pyInsert pyInsertPos
  rw [if_neg (by omega)]
  congr 1
  omega

theorem updateAll_sprite_list (attrs : Nat → SpriteAttr) (sp : Nat) (s : SLState) :
    (updateAll attrs sp s).sprite_list = s.sprite_list := by
  unfold updateAll
  cases alookup s.sprite_slot sp <;> rfl

theorem updateAll_sprite_slot (attrs : Nat → SpriteAttr) (sp : Nat) (s : SLState) :
    (updateAll attrs sp s).sprite_slot = s.sprite_slot := by
  unfold updateAll
  cases alookup s.sprite_slot sp <;> rfl

theorem updateAll_free_slots (attrs : Nat → SpriteAttr) (sp : Nat) (s : SLState) :
    (updateAll attrs sp s).free_slots = s.free_slots := by
  unfold updateAll
  cases alookup s.sprite_slot sp <;> rfl

theorem updateAll_sprite_buffer_slots (attrs : Nat → SpriteAttr) (sp : Nat) (s : SLState) :
    (updateAll attrs sp s).sprite_buffer_slots = s.sprite_buffer_slots := by
  unfold updateAll
  cases alookup s.sprite_slot sp <;> rfl

theorem updateAll_sprite_index_slots (attrs : Nat → SpriteAttr) (sp : Nat) (s : SLState) :
    (updateAll attrs sp s).sprite_index_slots = s.sprite_index_slots := by
  unfold updateAll
  cases alookup s.sprite_slot sp <;> rfl

theorem updateAll_buf_capacity (attrs : Nat → SpriteAttr) (sp : Nat) (s : SLState) :
    (updateAll attrs sp s).buf_capacity = s.buf_capacity := by
  unfold updateAll
  cases alookup s.sprite_slot sp <;> rfl

theorem updateAll_idx_capacity (attrs : Nat → SpriteAttr) (sp : Nat) (s : SLState) :
    (updateAll attrs sp s).idx_capacity = s.idx_capacity := by
  unfold updateAll
  cases alookup s.sprite_slot sp <;> rfl

theorem updateAll_sprite_index_data (attrs : Nat → SpriteAttr) (sp : Nat) (s : SLState) :
    (updateAll attrs sp s).sprite_index_data = s.sprite_index_data := by
  unfold updateAll
  cases alookup s.sprite_slot sp <;> rfl

theorem updateAll_spatial_hash (attrs : Nat → SpriteAttr) (sp : Nat) (s : SLState) :
    (updateAll attrs sp s).spatial_hash = s.spatial_hash := by
  unfold updateAll
  cases alookup s.sprite_slot sp <;> rfl

theorem updateAll_use_spatial_hash (attrs : Nat → SpriteAttr) (sp : Nat) (s : SLState) :
    (updateAll attrs sp s).use_spatial_hash = s.use_spatial_hash := by
  unfold updateAll
  cases alookup s.sprite_slot sp <;> rfl

theorem updateAll_initialized (attrs : Nat → SpriteAttr) (sp : Nat) (s : SLState) :
    (updateAll attrs sp s).initialized = s.initialized := by
  unfold updateAll
  cases alookup s.sprite_slot sp <;> rfl

theorem updateAll_pos_len (attrs : Nat → SpriteAttr) (sp : Nat) (s : SLState) :
    (updateAll attrs sp s).pos_data.length = s.pos_data.length := by
  unfold updateAll
  cases alookup s.sprite_slot sp <;> simp

theorem updateAll_size_len (attrs : Nat → SpriteAttr) (sp : Nat) (s : SLState) :
    (updateAll attrs sp s).size_data.length = s.size_data.length := by
  unfold updateAll
  cases alookup s.sprite_slot sp <;> simp

theorem updateAll_angle_len (attrs : Nat → SpriteAttr) (sp : Nat) (s : SLState) :
    (updateAll attrs sp s).angle_data.length = s.angle_data.length := by
  unfold updateAll
  cases alookup s.sprite_slot sp <;> simp

theorem updateAll_color_len (attrs : Nat → SpriteAttr) (sp : Nat) (s : SLState) :
    (updateAll attrs sp s).color_data.length = s.color_data.length := by
  unfold updateAll
  cases alookup s.sprite_slot sp <;> simp

theorem updateAll_tex_len (attrs : Nat → SpriteAttr) (sp : Nat) (s : SLState) :
    (updateAll attrs sp s).texture_data.length = s.texture_data.length := by
  unfold updateAll
  cases alookup s.sprite_slot sp with
  | none => rfl
  | some slot =>
    simp only []
    split
    · split <;> simp
    · rfl

theorem growSpriteBuffers_sprite_list (s : SLState) :
    (growSpriteBuffers s).sprite_list = s.sprite_list := by
  unfold growSpriteBuffers
  split <;> rfl

theorem growSpriteBuffers_sprite_slot (s : SLState) :
    (growSpriteBuffers s).sprite_slot = s.sprite_slot := by
  unfold growSpriteBuffers
  split <;> rfl

theorem growSpriteBuffers_free_slots (s : SLState) :
    (growSpriteBuffers s).free_slots = s.free_slots := by
  unfold growSpriteBuffers
  split <;> rfl

theorem growSpriteBuffers_sprite_buffer_slots (s : SLState) :
    (growSpriteBuffers s).sprite_buffer_slots = s.sprite_buffer_slots := by
  unfold growSpriteBuffers
  split <;> rfl

theorem growSpriteBuffers_sprite_index_slots (s : SLState) :
    (growSpriteBuffers s).sprite_index_slots = s.sprite_index_slots := by
  unfold growSpriteBuffers
  split <;> rfl

theorem growSpriteBuffers_idx_capacity (s : SLState) :
    (growSpriteBuffers s).idx_capacity = s.idx_capacity := by
  unfold growSpriteBuffers
  split <;> rfl

theorem growSpriteBuffers_sprite_index_data (s : SLState) :
    (growSpriteBuffers s).sprite_index_data = s.sprite_index_data := by
  unfold growSpriteBuffers
  split <;> rfl

theorem growSpriteBuffers_spatial_hash (s : SLState) :
    (growSpriteBuffers s).spatial_hash = s.spatial_hash := by
  unfold growSpriteBuffers
  split <;> rfl

theorem growSpriteBuffers_use_spatial_hash (s : SLState) :
    (growSpriteBuffers s).use_spatial_hash = s.use_spatial_hash := by
  unfold growSpriteBuffers
  split <;> rfl

theorem growSpriteBuffers_initialized (s : SLState) :
    (growSpriteBuffers s).initialized = s.initialized := by
  unfold growSpriteBuffers
  split <;> rfl

theorem growSpriteBuffers_lens (s : SLState)
    (hp : s.pos_data.length = 2 * s.buf_capacity)
    (hs : s.size_data.length = 2 * s.buf_capacity)
    (ha : s.angle_data.length = s.buf_capacity)
    (hc : s.color_data.length = 4 * s.buf_capacity)
    (ht : s.texture_data.length = s.buf_capacity) :
    (growSpriteBuffers s).pos_data.length = 2 * (growSpriteBuffers s).buf_capacity ∧
      (growSpriteBuffers s).size_data.length = 2 * (growSpriteBuffers s).buf_capacity ∧
      (growSpriteBuffers s).angle_data.length = (growSpriteBuffers s).buf_capacity ∧
      (growSpriteBuffers s).color_data.length = 4 * (growSpriteBuffers s).buf_capacity ∧
      (growSpriteBuffers s).texture_data.length = (growSpriteBuffers s).buf_capacity := by
  unfold growSpriteBuffers
  split
  · exact ⟨hp, hs, ha, hc, ht⟩
  · refine ⟨?_, ?_, ?_, ?_, ?_⟩ <;> simp [hp, hs, ha, hc, ht] <;> ring

theorem growSpriteBuffers_caps (s : SLState)
    (hc : 1 ≤ s.buf_capacity)
    (hb : s.sprite_buffer_slots ≤ s.buf_capacity + 1) :
    1 ≤ (growSpriteBuffers s).buf_capacity ∧
      (growSpriteBuffers s).sprite_buffer_slots ≤ (growSpriteBuffers s).buf_capacity := by
  rw [growSpriteBuffers_sprite_buffer_slots]
  unfold growSpriteBuffers
  split
  · next h => exact ⟨hc, by omega⟩
  · next h => simp only []; omega

theorem growIndexBuffer_sprite_list (s : SLState) :
    (growIndexBuffer s).sprite_list = s.sprite_list := by
  unfold growIndexBuffer
  split <;> rfl

theorem growIndexBuffer_sprite_slot (s : SLState) :
    (growIndexBuffer s).sprite_slot = s.sprite_slot := by
  unfold growIndexBuffer
  split <;> rfl

theorem growIndexBuffer_free_slots (s : SLState) :
    (growIndexBuffer s).free_slots = s.free_slots := by
  unfold growIndexBuffer
  split <;> rfl

theorem growIndexBuffer_sprite_buffer_slots (s : SLState) :
    (growIndexBuffer s).sprite_buffer_slots = s.sprite_buffer_slots := by
  unfold growIndexBuffer
  split <;> rfl

theorem growIndexBuffer_sprite_index_slots (s : SLState) :
    (growIndexBuffer s).sprite_index_slots = s.sprite_index_slots := by
  unfold growIndexBuffer
  split <;> rfl

theorem growIndexBuffer_buf_capacity (s : SLState) :
    (growIndexBuffer s).buf_capacity = s.buf_capacity := by
  unfold growIndexBuffer
  split <;> rfl

theorem growIndexBuffer_pos_data (s : SLState) :
    (growIndexBuffer s).pos_data = s.pos_data := by
  unfold growIndexBuffer
  split <;> rfl

theorem growIndexBuffer_size_data (s : SLState) :
    (growIndexBuffer s).size_data = s.size_data := by
  unfold growIndexBuffer
  split <;> rfl

theorem growIndexBuffer_angle_data (s : SLState) :
    (growIndexBuffer s).angle_data = s.angle_data := by
  unfold growIndexBuffer
  split <;> rfl

theorem growIndexBuffer_color_data (s : SLState) :
    (growIndexBuffer s).color_data = s.color_data := by
  unfold growIndexBuffer
  split <;> rfl

theorem growIndexBuffer_texture_data (s : SLState) :
    (growIndexBuffer s).texture_data = s.texture_data := by
  unfold growIndexBuffer
  split <;> rfl

theorem growIndexBuffer_spatial_hash (s : SLState) :
    (growIndexBuffer s).spatial_hash = s.spatial_hash := by
  unfold growIndexBuffer
  split <;> rfl

theorem growIndexBuffer_use_spatial_hash (s : SLState) :
    (growIndexBuffer s).use_spatial_hash = s.use_spatial_hash := by
  unfold growIndexBuffer
  split <;> rfl

theorem growIndexBuffer_initialized (s : SLState) :
    (growIndexBuffer s).initialized = s.initialized := by
  unfold growIndexBuffer
  split <;> rfl

theorem growIndexBuffer_ext (s : SLState) :
    ∃ ext, (growIndexBuffer s).sprite_index_data = s.sprite_index_data ++ ext := by
  unfold growIndexBuffer
  split
  · exact ⟨[], by simp⟩
  · exact ⟨List.replicate s.idx_capacity 0, rfl⟩

theorem growIndexBuffer_inv (s : SLState)
    (hc : 1 ≤ s.idx_capacity)
    (hi : s.sprite_index_slots ≤ s.idx_capacity + 1)
    (hl : s.sprite_index_data.length = s.idx_capacity) :
    1 ≤ (growIndexBuffer s).idx_capacity ∧
      (growIndexBuffer s).sprite_index_slots ≤ (growIndexBuffer s).idx_capacity ∧
      (growIndexBuffer s).sprite_index_data.length = (growIndexBuffer s).idx_capacity := by
  rw [growIndexBuffer_sprite_index_slots]
  unfold growIndexBuffer
  split
  · next h => exact ⟨hc, by omega, hl⟩
  · next h =>
    refine ⟨by simp only []; omega, by simp only []; omega, ?_⟩
    simp [hl]
    ring

theorem nextSlot_free (s : SLState) (slot : Nat) (rest : List Nat)
    (hf : s.free_slots = slot :: rest) :
    nextSlot s = (slot, { s with free_slots := rest }) := by
  unfold nextSlot
  rw [hf]

theorem nextSlot_fresh (s : SLState) (hf : s.free_slots = []) :
    nextSlot s = (s.sprite_buffer_slots,
      growSpriteBuffers { s with sprite_buffer_slots := s.sprite_buffer_slots + 1 }) := by
  unfold nextSlot
  rw [hf]

theorem nextSlot_sprite_list (s : SLState) :
    (nextSlot s).2.sprite_list = s.sprite_list := by
  unfold nextSlot
  cases hf : s.free_slots
  · rw [growSpriteBuffers_sprite_list]
  · rfl

theorem nextSlot_sprite_slot (s : SLState) :
    (nextSlot s).2.sprite_slot = s.sprite_slot := by
  unfold nextSlot
  cases hf : s.free_slots
  · rw [growSpriteBuffers_sprite_slot]
  · rfl

theorem nextSlot_sprite_index_slots (s : SLState) :
    (nextSlot s).2.sprite_index_slots = s.sprite_index_slots := by
  unfold nextSlot
  cases hf : s.free_slots
  · rw [growSpriteBuffers_sprite_index_slots]
  · rfl

theorem nextSlot_sprite_index_data (s : SLState) :
    (nextSlot s).2.sprite_index_data = s.sprite_index_data := by
  unfold nextSlot
  cases hf : s.free_slots
  · rw [growSpriteBuffers_sprite_index_data]
  · rfl

theorem nextSlot_idx_capacity (s : SLState) :
    (nextSlot s).2.idx_capacity = s.idx_capacity := by
  unfold nextSlot
  cases hf : s.free_slots
  · rw [growSpriteBuffers_idx_capacity]
  · rfl

theorem nextSlot_spatial_hash (s : SLState) :
    (nextSlot s).2.spatial_hash = s.spatial_hash := by
  unfold nextSlot
  cases hf : s.free_slots
  · rw [growSpriteBuffers_spatial_hash]
  · rfl

theorem nextSlot_use_spatial_hash (s : SLState) :
    (nextSlot s).2.use_spatial_hash = s.use_spatial_hash := by
  unfold nextSlot
  cases hf : s.free_slots
  · rw [growSpriteBuffers_use_spatial_hash]
  · rfl

theorem nextSlot_initialized (s : SLState) :
    (nextSlot s).2.initialized = s.initialized := by
  unfold nextSlot
  cases hf : s.free_slots
  · rw [growSpriteBuffers_initialized]
  · rfl

theorem nextSlot_caps (s : SLState)
    (hc : 1 ≤ s.buf_capacity)
    (hb : s.sprite_buffer_slots ≤ s.buf_capacity)
    (hp : s.pos_data.length = 2 * s.buf_capacity)
    (hsz : s.size_data.length = 2 * s.buf_capacity)
    (han : s.angle_data.length = s.buf_capacity)
    (hco : s.color_data.length = 4 * s.buf_capacity)
    (ht : s.texture_data.length = s.buf_capacity) :
    1 ≤ (nextSlot s).2.buf_capacity ∧
      (nextSlot s).2.sprite_buffer_slots ≤ (nextSlot s).2.buf_capacity ∧
      (nextSlot s).2.pos_data.length = 2 * (nextSlot s).2.buf_capacity ∧
      (nextSlot s).2.size_data.length = 2 * (nextSlot s).2.buf_capacity ∧
      (nextSlot s).2.angle_data.length = (nextSlot s).2.buf_capacity ∧
      (nextSlot s).2.color_data.length = 4 * (nextSlot s).2.buf_capacity ∧
      (nextSlot s).2.texture_data.length = (nextSlot s).2.buf_capacity := by
  cases hf : s.free_slots with
  | cons a rest =>
    rw [nextSlot_free s a rest hf]
    exact ⟨hc, hb, hp, hsz, han, hco, ht⟩
  | nil =>
    rw [nextSlot_fresh s hf]
    have hlens := growSpriteBuffers_lens
      { s with sprite_buffer_slots := s.sprite_buffer_slots + 1 }
      hp hsz han hco ht
    have hcaps := growSpriteBuffers_caps
      { s with sprite_buffer_slots := s.sprite_buffer_slots + 1 }
      hc (by simp only []; omega)
    exact ⟨hcaps.1, hcaps.2, hlens.1, hlens.2.1, hlens.2.2.1, hlens.2.2.2.1,
      hlens.2.2.2.2⟩

theorem nextSlot_slot_facts (s : SLState)
    (hfn : s.free_slots.Nodup)
    (hdisj : ∀ n, n ∈ s.sprite_slot.map Prod.snd → n ∉ s.free_slots)
    (hul : ∀ n ∈ s.sprite_slot.map Prod.snd, n < s.sprite_buffer_slots)
    (hfl : ∀ n ∈ s.free_slots, n < s.sprite_buffer_slots) :
    (nextSlot s).1 ∉ s.sprite_slot.map Prod.snd ∧
      (nextSlot s).1 ∉ (nextSlot s).2.free_slots ∧
      (nextSlot s).2.free_slots.Nodup ∧
      (∀ n, n ∈ s.sprite_slot.map Prod.snd → n ∉ (nextSlot s).2.free_slots) ∧
      (∀ n, n ∈ s.sprite_slot.map Prod.snd → n < (nextSlot s).2.sprite_buffer_slots) ∧
      (∀ n, n ∈ (nextSlot s).2.free_slots → n < (nextSlot s).2.sprite_buffer_slots) ∧
      (nextSlot s).1 < (nextSlot s).2.sprite_buffer_slots := by
  cases hf : s.free_slots with
  | cons a rest =>
    rw [nextSlot_free s a rest hf]
    have hmema : a ∈ s.free_slots := by
      rw [hf]
      exact List.mem_cons_self a rest
    have hnd : (a :: rest).Nodup := by
      rw [← hf]
      exact hfn
    refine ⟨?_, ?_, ?_, ?_, ?_, ?_, ?_⟩
    · intro hmem
      exact hdisj a hmem hmema
    · exact (List.nodup_cons.mp hnd).1
    · exact (List.nodup_cons.mp hnd).2
    · intro n hn hr
      refine hdisj n hn ?_
      rw [hf]
      exact List.mem_cons_of_mem a hr
    · exact hul
    · intro n hr
      refine hfl n ?_
      rw [hf]
      exact List.mem_cons_of_mem a hr
    · exact hfl a hmema
  | nil =>
    rw [nextSlot_fresh s hf]
    have hfree : (growSpriteBuffers
        { s with sprite_buffer_slots := s.sprite_buffer_slots + 1 }).free_slots = [] := by
      rw [growSpriteBuffers_free_slots]
      exact hf
    have hbs : (growSpriteBuffers
        { s with sprite_buffer_slots := s.sprite_buffer_slots + 1 }).sprite_buffer_slots =
        s.sprite_buffer_slots + 1 := by
      rw [growSpriteBuffers_sprite_buffer_slots]
    refine ⟨?_, ?_, ?_, ?_, ?_, ?_, ?_⟩
    · intro hmem
      exact absurd (hul _ hmem) (Nat.lt_irrefl _)
    · rw [hfree]
      simp
    · rw [hfree]
      simp
    · intro n _
      rw [hfree]
      simp
    · intro n hn
      rw [hbs]
      exact Nat.lt_succ_of_lt (hul n hn)
    · intro n hr
      rw [hfree] at hr
      simp at hr
    · rw [hbs]
      exact Nat.lt_succ_self _

theorem slAdd_sprite_list (attrs : Nat → SpriteAttr) (sp slot : Nat) (sA : SLState) :
    (slAdd attrs sp slot sA).sprite_list = sA.sprite_list ++ [sp] := by
  unfold slAdd
  rw [updateAll_sprite_list]

theorem slAdd_sprite_slot (attrs : Nat → SpriteAttr) (sp slot : Nat) (sA : SLState) :
    (slAdd attrs sp slot sA).sprite_slot = sA.sprite_slot ++ [(sp, slot)] := by
  unfold slAdd
  rw [updateAll_sprite_slot]

theorem slAdd_free_slots (attrs : Nat → SpriteAttr) (sp slot : Nat) (sA : SLState) :
    (slAdd attrs sp slot sA).free_slots = sA.free_slots := by
  unfold slAdd
  rw [updateAll_free_slots]

theorem slAdd_sprite_buffer_slots (attrs : Nat → SpriteAttr) (sp slot : Nat) (sA : SLState) :
    (slAdd attrs sp slot sA).sprite_buffer_slots = sA.sprite_buffer_slots := by
  unfold slAdd
  rw [updateAll_sprite_buffer_slots]

theorem slAdd_sprite_index_slots (attrs : Nat → SpriteAttr) (sp slot : Nat) (sA : SLState) :
    (slAdd attrs sp slot sA).sprite_index_slots = sA.sprite_index_slots := by
  unfold slAdd
  rw [updateAll_sprite_index_slots]

theorem slAdd_sprite_index_data (attrs : Nat → SpriteAttr) (sp slot : Nat) (sA : SLState) :
    (slAdd attrs sp slot sA).sprite_index_data = sA.sprite_index_data := by
  unfold slAdd
  rw [updateAll_sprite_index_data]

theorem slAdd_buf_capacity (attrs : Nat → SpriteAttr) (sp slot : Nat) (sA : SLState) :
    (slAdd attrs sp slot sA).buf_capacity = sA.buf_capacity := by
  unfold slAdd
  rw [updateAll_buf_capacity]

theorem slAdd_idx_capacity (attrs : Nat → SpriteAttr) (sp slot : Nat) (sA : SLState) :
    (slAdd attrs sp slot sA).idx_capacity = sA.idx_capacity := by
  unfold slAdd
  rw [updateAll_idx_capacity]

theorem slAdd_spatial_hash (attrs : Nat → SpriteAttr) (sp slot : Nat) (sA : SLState) :
    (slAdd attrs sp slot sA).spatial_hash = sA.spatial_hash := by
  unfold slAdd
  rw [updateAll_spatial_hash]

theorem slAdd_pos_len (attrs : Nat → SpriteAttr) (sp slot : Nat) (sA : SLState) :
    (slAdd attrs sp slot sA).pos_data.length = sA.pos_data.length := by
  unfold slAdd
  rw [updateAll_pos_len]

theorem slAdd_size_len (attrs : Nat → SpriteAttr) (sp slot : Nat) (sA : SLState) :
    (slAdd attrs sp slot sA).size_data.length = sA.size_data.length := by
  unfold slAdd
  rw [updateAll_size_len]

theorem slAdd_angle_len (attrs : Nat → SpriteAttr) (sp slot : Nat) (sA : SLState) :
    (slAdd attrs sp slot sA).angle_data.length = sA.angle_data.length := by
  unfold slAdd
  rw [updateAll_angle_len]

theorem slAdd_color_len (attrs : Nat → SpriteAttr) (sp slot : Nat) (sA : SLState) :
    (slAdd attrs sp slot sA).color_data.length = sA.color_data.length := by
  unfold slAdd
  rw [updateAll_color_len]

theorem slAdd_tex_len (attrs : Nat → SpriteAttr) (sp slot : Nat) (sA : SLState) :
    (slAdd attrs sp slot sA).texture_data.length = sA.texture_data.length := by
  unfold slAdd
  rw [updateAll_tex_len]

theorem slAddIns_sprite_list (attrs : Nat → SpriteAttr) (sp slot : Nat) (sA : SLState) :
    (slAddIns attrs sp slot sA).sprite_list = sA.sprite_list := by
  unfold slAddIns
  rw [updateAll_sprite_list]

theorem slAddIns_sprite_slot (attrs : Nat → SpriteAttr) (sp slot : Nat) (sA : SLState) :
    (slAddIns attrs sp slot sA).sprite_slot = sA.sprite_slot ++ [(sp, slot)] := by
  unfold slAddIns
  rw [updateAll_sprite_slot]

theorem slAddIns_free_slots (attrs : Nat → SpriteAttr) (sp slot : Nat) (sA : SLState) :
    (slAddIns attrs sp slot sA).free_slots = sA.free_slots := by
  unfold slAddIns
  rw [updateAll_free_slots]

theorem slAddIns_sprite_buffer_slots (attrs : Nat → SpriteAttr) (sp slot : Nat)
    (sA : SLState) :
    (slAddIns attrs sp slot sA).sprite_buffer_slots = sA.sprite_buffer_slots := by
  unfold slAddIns
  rw [updateAll_sprite_buffer_slots]

theorem slAddIns_sprite_index_slots (attrs : Nat → SpriteAttr) (sp slot : Nat)
    (sA : SLState) :
    (slAddIns attrs sp slot sA).sprite_index_slots = sA.sprite_index_slots := by
  unfold slAddIns
  rw [updateAll_sprite_index_slots]

theorem slAddIns_sprite_index_data (attrs : Nat → SpriteAttr) (sp slot : Nat)
    (sA : SLState) :
    (slAddIns attrs sp slot sA).sprite_index_data = sA.sprite_index_data := by
  unfold slAddIns
  rw [updateAll_sprite_index_data]

theorem slAddIns_buf_capacity (attrs : Nat → SpriteAttr) (sp slot : Nat) (sA : SLState) :
    (slAddIns attrs sp slot sA).buf_capacity = sA.buf_capacity := by
  unfold slAddIns
  rw [updateAll_buf_capacity]

theorem slAddIns_idx_capacity (attrs : Nat → SpriteAttr) (sp slot : Nat) (sA : SLState) :
    (slAddIns attrs sp slot sA).idx_capacity = sA.idx_capacity := by
  unfold slAddIns
  rw [updateAll_idx_capacity]

theorem slAddIns_spatial_hash (attrs : Nat → SpriteAttr) (sp slot : Nat) (sA : SLState) :
    (slAddIns attrs sp slot sA).spatial_hash = sA.spatial_hash := by
  unfold slAddIns
  rw [updateAll_spatial_hash]

theorem slAddIns_pos_len (attrs : Nat → SpriteAttr) (sp slot : Nat) (sA : SLState) :
    (slAddIns attrs sp slot sA).pos_data.length = sA.pos_data.length := by
  unfold slAddIns
  rw [updateAll_pos_len]

theorem slAddIns_size_len (attrs : Nat → SpriteAttr) (sp slot : Nat) (sA : SLState) :
    (slAddIns attrs sp slot sA).size_data.length = sA.size_data.length := by
  unfold slAddIns
  rw [updateAll_size_len]

theorem slAddIns_angle_len (attrs : Nat → SpriteAttr) (sp slot : Nat) (sA : SLState) :
    (slAddIns attrs sp slot sA).angle_data.length = sA.angle_data.length := by
  unfold slAddIns
  rw [updateAll_angle_len]

theorem slAddIns_color_len (attrs : Nat → SpriteAttr) (sp slot : Nat) (sA : SLState) :
    (slAddIns attrs sp slot sA).color_data.length = sA.color_data.length := by
  unfold slAddIns
  rw [updateAll_color_len]

theorem slAddIns_tex_len (attrs : Nat → SpriteAttr) (sp slot : Nat) (sA : SLState) :
    (slAddIns attrs sp slot sA).texture_data.length = sA.texture_data.length := by
  unfold slAddIns
  rw [updateAll_tex_len]

theorem idxAppend_sprite_list (slot : Nat) (t : SLState) :
    (idxAppend slot t).sprite_list = t.sprite_list := by
  simp only [idxAppend]
  rw [growIndexBuffer_sprite_list]

theorem idxAppend_sprite_slot (slot : Nat) (t : SLState) :
    (idxAppend slot t).sprite_slot = t.sprite_slot := by
  simp only [idxAppend]
  rw [growIndexBuffer_sprite_slot]

theorem idxAppend_free_slots (slot : Nat) (t : SLState) :
    (idxAppend slot t).free_slots = t.free_slots := by
  simp only [idxAppend]
  rw [growIndexBuffer_free_slots]

theorem idxAppend_sprite_buffer_slots (slot : Nat) (t : SLState) :
    (idxAppend slot t).sprite_buffer_slots = t.sprite_buffer_slots := by
  simp only [idxAppend]
  rw [growIndexBuffer_sprite_buffer_slots]

theorem idxAppend_sprite_index_slots (slot : Nat) (t : SLState) :
    (idxAppend slot t).sprite_index_slots = t.sprite_index_slots + 1 := by
  simp only [idxAppend]
  rw [growIndexBuffer_sprite_index_slots]

theorem idxAppend_buf_capacity (slot : Nat) (t : SLState) :
    (idxAppend slot t).buf_capacity = t.buf_capacity := by
  simp only [idxAppend]
  rw [growIndexBuffer_buf_capacity]

theorem idxAppend_pos_data (slot : Nat) (t : SLState) :
    (idxAppend slot t).pos_data = t.pos_data := by
  simp only [idxAppend]
  rw [growIndexBuffer_pos_data]

theorem idxAppend_size_data (slot : Nat) (t : SLState) :
    (idxAppend slot t).size_data = t.size_data := by
  simp only [idxAppend]
  rw [growIndexBuffer_size_data]

theorem idxAppend_angle_data (slot : Nat) (t : SLState) :
    (idxAppend slot t).angle_data = t.angle_data := by
  simp only [idxAppend]
  rw [growIndexBuffer_angle_data]

theorem idxAppend_color_data (slot : Nat) (t : SLState) :
    (idxAppend slot t).color_data = t.color_data := by
  simp only [idxAppend]
  rw [growIndexBuffer_color_data]

theorem idxAppend_texture_data (slot : Nat) (t : SLState) :
    (idxAppend slot t).texture_data = t.texture_data := by
  simp only [idxAppend]
  rw [growIndexBuffer_texture_data]

theorem idxAppend_spatial_hash (slot : Nat) (t : SLState) :
    (idxAppend slot t).spatial_hash = t.spatial_hash := by
  simp only [idxAppend]
  rw [growIndexBuffer_spatial_hash]

theorem idxAppend_idx (slot : Nat) (t : SLState)
    (hc : 1 ≤ t.idx_capacity)
    (hi : t.sprite_index_slots ≤ t.idx_capacity)
    (hl : t.sprite_index_data.length = t.idx_capacity) :
    1 ≤ (idxAppend slot t).idx_capacity ∧
      (idxAppend slot t).sprite_index_slots ≤ (idxAppend slot t).idx_capacity ∧
      (idxAppend slot t).sprite_index_data.length = (idxAppend slot t).idx_capacity ∧
      (idxAppend slot t).sprite_index_data.take (t.sprite_index_slots + 1) =
        t.sprite_index_data.take t.sprite_index_slots ++ [slot] := by
  obtain ⟨g1, g2, g3⟩ := growIndexBuffer_inv
    { t with sprite_index_slots := t.sprite_index_slots + 1 }
    hc (by simp only []; omega) hl
  obtain ⟨ext, hext⟩ := growIndexBuffer_ext
    { t with sprite_index_slots := t.sprite_index_slots + 1 }
  simp only [idxAppend]
  set t2 := growIndexBuffer { t with sprite_index_slots := t.sprite_index_slots + 1 }
    with ht2
  have hti : t2.sprite_index_slots = t.sprite_index_slots + 1 := by
    rw [ht2, growIndexBuffer_sprite_index_slots]
  rw [hti] at g2
  refine ⟨g1, ?_, ?_, ?_⟩
  · rw [hti]
    exact g2
  · simp only [List.length_set]
    exact g3
  · have hpos : t.sprite_index_slots < t2.sprite_index_data.length := by
      rw [g3]
      omega
    rw [take_set_succ t2.sprite_index_data t.sprite_index_slots slot hpos, hext]
    rw [take_append_le t.sprite_index_slots t.sprite_index_data ext (by omega)]

theorem idxInsert_sprite_list (idx : Int) (slot : Nat) (t : SLState) :
    (idxInsert idx slot t).sprite_list = t.sprite_list := by
  simp only [idxInsert]
  rw [growIndexBuffer_sprite_list]

theorem idxInsert_sprite_slot (idx : Int) (slot : Nat) (t : SLState) :
    (idxInsert idx slot t).sprite_slot = t.sprite_slot := by
  simp only [idxInsert]
  rw [growIndexBuffer_sprite_slot]

theorem idxInsert_free_slots (idx : Int) (slot : Nat) (t : SLState) :
    (idxInsert idx slot t).free_slots = t.free_slots := by
  simp only [idxInsert]
  rw [growIndexBuffer_free_slots]

theorem idxInsert_sprite_buffer_slots (idx : Int) (slot : Nat) (t : SLState) :
    (idxInsert idx slot t).sprite_buffer_slots = t.sprite_buffer_slots := by
  simp only [idxInsert]
  rw [growIndexBuffer_sprite_buffer_slots]

theorem idxInsert_sprite_index_slots (idx : Int) (slot : Nat) (t : SLState) :
    (idxInsert idx slot t).sprite_index_slots = t.sprite_index_slots + 1 := by
  simp only [idxInsert]
  rw [growIndexBuffer_sprite_index_slots]

theorem idxInsert_buf_capacity (idx : Int) (slot : Nat) (t : SLState) :
    (idxInsert idx slot t).buf_capacity = t.buf_capacity := by
  simp only [idxInsert]
  rw [growIndexBuffer_buf_capacity]

theorem idxInsert_pos_data (idx : Int) (slot : Nat) (t : SLState) :
    (idxInsert idx slot t).pos_data = t.pos_data := by
  simp only [idxInsert]
  rw [growIndexBuffer_pos_data]

theorem idxInsert_size_data (idx : Int) (slot : Nat) (t : SLState) :
    (idxInsert idx slot t).size_data = t.size_data := by
  simp only [idxInsert]
  rw [growIndexBuffer_size_data]

theorem idxInsert_angle_data (idx : Int) (slot : Nat) (t : SLState) :
    (idxInsert idx slot t).angle_data = t.angle_data := by
  simp only [idxInsert]
  rw [growIndexBuffer_angle_data]

theorem idxInsert_color_data (idx : Int) (slot : Nat) (t : SLState) :
    (idxInsert idx slot t).color_data = t.color_data := by
  simp only [idxInsert]
  rw [growIndexBuffer_color_data]

theorem idxInsert_texture_data (idx : Int) (slot : Nat) (t : SLState) :
    (idxInsert idx slot t).texture_data = t.texture_data := by
  simp only [idxInsert]
  rw [growIndexBuffer_texture_data]

theorem idxInsert_spatial_hash (idx : Int) (slot : Nat) (t : SLState) :
    (idxInsert idx slot t).spatial_hash = t.spatial_hash := by
  simp only [idxInsert]
  rw [growIndexBuffer_spatial_hash]

theorem idxInsert_idx (idx : Int) (slot : Nat) (t : SLState)
    (hc : 1 ≤ t.idx_capacity)
    (hi : t.sprite_index_slots ≤ t.idx_capacity)
    (hl : t.sprite_index_data.length = t.idx_capacity)
    (h0 : 0 ≤ idx)
    (hle : idx ≤ (t.sprite_index_slots : Int)) :
    1 ≤ (idxInsert idx slot t).idx_capacity ∧
      (idxInsert idx slot t).sprite_index_slots ≤ (idxInsert idx slot t).idx_capacity ∧
      (idxInsert idx slot t).sprite_index_data.length = (idxInsert idx slot t).idx_capacity ∧
      (idxInsert idx slot t).sprite_index_data.take (t.sprite_index_slots + 1) =
        listInsertAt idx.toNat slot (t.sprite_index_data.take t.sprite_index_slots) := by
  obtain ⟨g1, g2, g3⟩ := growIndexBuffer_inv
    { t with sprite_index_slots := t.sprite_index_slots + 1 }
    hc (by simp only []; omega) hl
  obtain ⟨ext, hext⟩ := growIndexBuffer_ext
    { t with sprite_index_slots := t.sprite_index_slots + 1 }
  simp only [idxInsert]
  set t2 := growIndexBuffer { t with sprite_index_slots := t.sprite_index_slots + 1 }
    with ht2
  have hti : t2.sprite_index_slots = t.sprite_index_slots + 1 := by
    rw [ht2, growIndexBuffer_sprite_index_slots]
  rw [hti] at g2
  have hlen2 : t2.sprite_index_data.length = t.sprite_index_data.length + ext.length := by
    rw [hext]
    simp
  have hpy : pyInsert t2.sprite_index_data idx slot =
      listInsertAt idx.toNat slot t2.sprite_index_data := by
    refine pyInsert_of_nonneg_le t2.sprite_index_data idx slot h0 ?_
    rw [g3]
    omega
  refine ⟨g1, ?_, ?_, ?_⟩
  · rw [hti]
    exact g2
  · rw [hpy, List.length_dropLast, length_listInsertAt]
    simp only [Nat.add_sub_cancel]
    exact g3
  · rw [hpy]
    have hPR : t2.sprite_index_data =
        t.sprite_index_data.take t.sprite_index_slots ++
          (t.sprite_index_data.drop t.sprite_index_slots ++ ext) := by
      rw [← List.append_assoc, List.take_append_drop, hext]
    have hPlen : (t.sprite_index_data.take t.sprite_index_slots).length =
        t.sprite_index_slots := by
      rw [List.length_take]
      omega
    have hcle : idx.toNat ≤ (t.sprite_index_data.take t.sprite_index_slots).length := by
      rw [hPlen]
      omega
    rw [hPR, listInsertAt_append idx.toNat slot _ _ hcle]
    have hBne : t.sprite_index_data.drop t.sprite_index_slots ++ ext ≠ [] := by
      intro hB
      have hBlen := congrArg List.length hB
      simp only [List.length_append, List.length_drop, List.length_nil] at hBlen
      have : t2.sprite_index_data.length =
          t.sprite_index_data.length + ext.length := hlen2
      rw [g3] at this
      omega
    rw [List.dropLast_append_of_ne_nil _ hBne]
    refine List.take_left' ?_
    rw [length_listInsertAt, hPlen]

theorem hashInsert_eq (sp : Nat) (s : SLState) :
    hashInsert sp s =
      { s with spatial_hash :=
          match s.spatial_hash with
          | none => none
          | some hsh => some (hsh ++ [sp]) } := by
  obtain ⟨l, ps, fs, bs, is, bc, ic, pd, sd, ad, cd, td, idxd, sh, ush, ini, defr⟩ := s
  cases sh <;> rfl

theorem hashRemove_eq (sp : Nat) (s : SLState) :
    hashRemove sp s =
      { s with spatial_hash :=
          match s.spatial_hash with
          | none => none
          | some hsh => some (hsh.erase sp) } := by
  obtain ⟨l, ps, fs, bs, is, bc, ic, pd, sd, ad, cd, td, idxd, sh, ush, ini, defr⟩ := s
  cases sh <;> rfl

theorem inv_appendOk (attrs : Nat → SpriteAttr) (sp : Nat) (s : SLState)
    (hI : Inv s) (hsp : alookup s.sprite_slot sp = none) :
    Inv (appendOk attrs sp s) := by
  obtain ⟨c1, c2, c3, c4, c5, c6, c7⟩ :=
    nextSlot_caps s hI.cap_pos hI.bslots_le hI.pos_len hI.size_len hI.angle_len
      hI.color_len hI.tex_len
  obtain ⟨f1, f2, f3, f4, f5, f6, f7⟩ :=
    nextSlot_slot_facts s hI.free_nodup hI.used_free_disj hI.used_lt hI.free_lt
  have hspkeys : sp ∉ s.sprite_slot.map Prod.fst := (alookup_eq_none_iff _ _).mp hsp
  have hsplist : sp ∉ s.sprite_list := fun h => hspkeys ((hI.mem_iff sp).mp h)
  unfold appendOk
  set slot := (nextSlot s).1 with hslot
  set s1 := (nextSlot s).2 with hs1
  set t := slAdd attrs sp slot s1 with ht
  set u := idxAppend slot t with hu
  have t_islots : t.sprite_index_slots = s.sprite_index_slots := by
    rw [ht, slAdd_sprite_index_slots, hs1, nextSlot_sprite_index_slots]
  have t_idxdata : t.sprite_index_data = s.sprite_index_data := by
    rw [ht, slAdd_sprite_index_data, hs1, nextSlot_sprite_index_data]
  have t_icap : t.idx_capacity = s.idx_capacity := by
    rw [ht, slAdd_idx_capacity, hs1, nextSlot_idx_capacity]
  obtain ⟨i1, i2, i3, i4⟩ := idxAppend_idx slot t
    (by rw [t_icap]; exact hI.icap_pos)
    (by rw [t_islots, t_icap]; exact hI.islots_le)
    (by rw [t_idxdata, t_icap]; exact hI.idx_len)
  rw [t_islots, t_idxdata] at i4
  have u_list : u.sprite_list = s.sprite_list ++ [sp] := by
    rw [hu, idxAppend_sprite_list, ht, slAdd_sprite_list, hs1, nextSlot_sprite_list]
  have u_slot : u.sprite_slot = s.sprite_slot ++ [(sp, slot)] := by
    rw [hu, idxAppend_sprite_slot, ht, slAdd_sprite_slot, hs1, nextSlot_sprite_slot]
  have u_free : u.free_slots = s1.free_slots := by
    rw [hu, idxAppend_free_slots, ht, slAdd_free_slots]
  have u_bs : u.sprite_buffer_slots = s1.sprite_buffer_slots := by
    rw [hu, idxAppend_sprite_buffer_slots, ht, slAdd_sprite_buffer_slots]
  have u_islots : u.sprite_index_slots = s.sprite_index_slots + 1 := by
    rw [hu, idxAppend_sprite_index_slots, t_islots]
  have u_bcap : u.buf_capacity = s1.buf_capacity := by
    rw [hu, idxAppend_buf_capacity, ht, slAdd_buf_capacity]
  have u_hash : u.spatial_hash = s.spatial_hash := by
    rw [hu, idxAppend_spatial_hash, ht, slAdd_spatial_hash, hs1, nextSlot_spatial_hash]
  have u_pos : u.pos_data.length = s1.pos_data.length := by
    rw [hu, idxAppend_pos_data, ht, slAdd_pos_len]
  have u_size : u.size_data.length = s1.size_data.length := by
    rw [hu, idxAppend_size_data, ht, slAdd_size_len]
  have u_angle : u.angle_data.length = s1.angle_data.length := by
    rw [hu, idxAppend_angle_data, ht, slAdd_angle_len]
  have u_color : u.color_data.length = s1.color_data.length := by
    rw [hu, idxAppend_color_data, ht, slAdd_color_len]
  have u_tex : u.texture_data.length = s1.texture_data.length := by
    rw [hu, idxAppend_texture_data, ht, slAdd_tex_len]
  rw [hashInsert_eq]
  refine ⟨?_, ?_, ?_, ?_, ?_, ?_, ?_, ?_, ?_, ?_, ?_, ?_, ?_, ?_, ?_, ?_, ?_, ?_,
    ?_, ?_, ?_, ?_, ?_⟩
  · dsimp only
    rw [u_bcap]
    exact c1
  · dsimp only
    exact i1
  · dsimp only
    rw [u_bs, u_bcap]
    exact c2
  · dsimp only
    exact i2
  · dsimp only
    rw [u_pos, u_bcap]
    exact c3
  · dsimp only
    rw [u_size, u_bcap]
    exact c4
  · dsimp only
    rw [u_angle, u_bcap]
    exact c5
  · dsimp only
    rw [u_color, u_bcap]
    exact c6
  · dsimp only
    rw [u_tex, u_bcap]
    exact c7
  · dsimp only
    exact i3
  · dsimp only
    rw [u_list]
    refine hI.list_nodup.append (List.nodup_singleton sp) ?_
    intro a ha hb
    rw [List.mem_singleton] at hb
    subst hb
    exact hsplist ha
  · dsimp only
    rw [u_slot]
    simp only [List.map_append, List.map_cons, List.map_nil]
    refine hI.keys_nodup.append (List.nodup_singleton sp) ?_
    intro a ha hb
    rw [List.mem_singleton] at hb
    subst hb
    exact hspkeys ha
  · dsimp only
    intro x
    rw [u_list, u_slot]
    simp only [List.map_append, List.map_cons, List.map_nil, List.mem_append,
      List.mem_singleton]
    rw [hI.mem_iff x]
  · dsimp only
    rw [u_list, u_slot]
    simp [hI.count_list]
  · dsimp only
    rw [u_slot, u_islots]
    simp [hI.count_idx]
  · dsimp only
    rw [u_slot]
    simp only [List.map_append, List.map_cons, List.map_nil]
    refine hI.used_nodup.append (List.nodup_singleton slot) ?_
    intro a ha hb
    rw [List.mem_singleton] at hb
    subst hb
    exact f1 ha
  · dsimp only
    rw [u_free]
    exact f3
  · dsimp only
    intro n hn
    rw [u_slot] at hn
    simp only [List.map_append, List.map_cons, List.map_nil] at hn
    rw [u_free]
    rcases List.mem_append.mp hn with h | h
    · exact f4 n h
    · rw [List.mem_singleton] at h
      subst h
      exact f2
  · dsimp only
    intro n hn
    rw [u_slot] at hn
    simp only [List.map_append, List.map_cons, List.map_nil] at hn
    rw [u_bs]
    rcases List.mem_append.mp hn with h | h
    · exact f5 n h
    · rw [List.mem_singleton] at h
      subst h
      exact f7
  · dsimp only
    intro n hn
    rw [u_free] at hn
    rw [u_bs]
    exact f6 n hn
  · dsimp only
    intro n hn
    rw [u_slot] at hn
    simp only [List.map_append, List.map_cons, List.map_nil] at hn
    rw [u_islots, i4]
    rcases List.mem_append.mp hn with h | h
    · exact List.mem_append_left _ (hI.used_in_front n h)
    · rw [List.mem_singleton] at h
      subst h
      exact List.mem_append_right _ (List.mem_singleton_self _)
  · dsimp only
    rw [u_hash]
    cases hsh0 : s.spatial_hash with
    | none =>
      intro hsh h
      simp at h
    | some h0 =>
      intro hsh h
      simp only [] at h
      injection h with h
      subst h
      refine (hI.hash_nodup h0 hsh0).append (List.nodup_singleton sp) ?_
      intro a ha hb
      rw [List.mem_singleton] at hb
      subst hb
      exact hsplist ((hI.hash_mem h0 hsh0 a).mp ha)
  · dsimp only
    rw [u_hash, u_list]
    cases hsh0 : s.spatial_hash with
    | none =>
      intro hsh h
      simp at h
    | some h0 =>
      intro hsh h x
      simp only [] at h
      injection h with h
      subst h
      simp only [List.mem_append, List.mem_singleton]
      rw [hI.hash_mem h0 hsh0 x]

theorem inv_insertOk (attrs : Nat → SpriteAttr) (idx : Int) (sp : Nat) (s : SLState)
    (hI : Inv s) (hsp : sp ∉ s.sprite_list)
    (h0 : 0 ≤ idx) (hle : idx ≤ (s.sprite_list.length : Int)) :
    Inv (hashInsert sp (idxInsert idx
      (nextSlot { s with sprite_list := pyInsert s.sprite_list idx sp }).1
      (slAddIns attrs sp
        (nextSlot { s with sprite_list := pyInsert s.sprite_list idx sp }).1
        (nextSlot { s with sprite_list := pyInsert s.sprite_list idx sp }).2))) := by
  have hspkeys : sp ∉ s.sprite_slot.map Prod.fst := fun h => hsp ((hI.mem_iff sp).mpr h)
  have hcount : s.sprite_list.length = s.sprite_index_slots :=
    hI.count_list.trans hI.count_idx
  have hpy : pyInsert s.sprite_list idx sp = listInsertAt idx.toNat sp s.sprite_list :=
    pyInsert_of_nonneg_le s.sprite_list idx sp h0 hle
  set sIns := { s with sprite_list := pyInsert s.sprite_list idx sp } with hsIns
  obtain ⟨c1, c2, c3, c4, c5, c6, c7⟩ :=
    nextSlot_caps sIns hI.cap_pos hI.bslots_le hI.pos_len hI.size_len hI.angle_len
      hI.color_len hI.tex_len
  obtain ⟨f1, f2, f3, f4, f5, f6, f7⟩ :=
    nextSlot_slot_facts sIns hI.free_nodup hI.used_free_disj hI.used_lt hI.free_lt
  set slot := (nextSlot sIns).1 with hslot
  set s1 := (nextSlot sIns).2 with hs1
  set t := slAddIns attrs sp slot s1 with ht
  set u := idxInsert idx slot t with hu
  have t_islots : t.sprite_index_slots = s.sprite_index_slots := by
    rw [ht, slAddIns_sprite_index_slots, hs1, nextSlot_sprite_index_slots]
  have t_idxdata : t.sprite_index_data = s.sprite_index_data := by
    rw [ht, slAddIns_sprite_index_data, hs1, nextSlot_sprite_index_data]
  have t_icap : t.idx_capacity = s.idx_capacity := by
    rw [ht, slAddIns_idx_capacity, hs1, nextSlot_idx_capacity]
  obtain ⟨i1, i2, i3, i4⟩ := idxInsert_idx idx slot t
    (by rw [t_icap]; exact hI.icap_pos)
    (by rw [t_islots, t_icap]; exact hI.islots_le)
    (by rw [t_idxdata, t_icap]; exact hI.idx_len)
    h0
    (by rw [t_islots]; omega)
  rw [t_islots, t_idxdata] at i4
  have u_list : u.sprite_list = listInsertAt idx.toNat sp s.sprite_list := by
    rw [hu, idxInsert_sprite_list, ht, slAddIns_sprite_list, hs1, nextSlot_sprite_list,
      hsIns]
    exact hpy
  have u_slot : u.sprite_slot = s.sprite_slot ++ [(sp, slot)] := by
    rw [hu, idxInsert_sprite_slot, ht, slAddIns_sprite_slot, hs1, nextSlot_sprite_slot]
  have u_free : u.free_slots = s1.free_slots := by
    rw [hu, idxInsert_free_slots, ht, slAddIns_free_slots]
  have u_bs : u.sprite_buffer_slots = s1.sprite_buffer_slots := by
    rw [hu, idxInsert_sprite_buffer_slots, ht, slAddIns_sprite_buffer_slots]
  have u_islots : u.sprite_index_slots = s.sprite_index_slots + 1 := by
    rw [hu, idxInsert_sprite_index_slots, t_islots]
  have u_bcap : u.buf_capacity = s1.buf_capacity := by
    rw [hu, idxInsert_buf_capacity, ht, slAddIns_buf_capacity]
  have u_hash : u.spatial_hash = s.spatial_hash := by
    rw [hu, idxInsert_spatial_hash, ht, slAddIns_spatial_hash, hs1, nextSlot_spatial_hash]
  have u_pos : u.pos_data.length = s1.pos_data.length := by
    rw [hu, idxInsert_pos_data, ht, slAddIns_pos_len]
  have u_size : u.size_data.length = s1.size_data.length := by
    rw [hu, idxInsert_size_data, ht, slAddIns_size_len]
  have u_angle : u.angle_data.length = s1.angle_data.length := by
    rw [hu, idxInsert_angle_data, ht, slAddIns_angle_len]
  have u_color : u.color_data.length = s1.color_data.length := by
    rw [hu, idxInsert_color_data, ht, slAddIns_color_len]
  have u_tex : u.texture_data.length = s1.texture_data.length := by
    rw [hu, idxInsert_texture_data, ht, slAddIns_tex_len]
  rw [hashInsert_eq]
  refine ⟨?_, ?_, ?_, ?_, ?_, ?_, ?_, ?_, ?_, ?_, ?_, ?_, ?_, ?_, ?_, ?_, ?_, ?_,
    ?_, ?_, ?_, ?_, ?_⟩
  · dsimp only
    rw [u_bcap]
    exact c1
  · dsimp only
    exact i1
  · dsimp only
    rw [u_bs, u_bcap]
    exact c2
  · dsimp only
    exact i2
  · dsimp only
    rw [u_pos, u_bcap]
    exact c3
  · dsimp only
    rw [u_size, u_bcap]
    exact c4
  · dsimp only
    rw [u_angle, u_bcap]
    exact c5
  · dsimp only
    rw [u_color, u_bcap]
    exact c6
  · dsimp only
    rw [u_tex, u_bcap]
    exact c7
  · dsimp only
    exact i3
  · dsimp only
    rw [u_list]
    exact nodup_listInsertAt idx.toNat sp s.sprite_list hsp hI.list_nodup
  · dsimp only
    rw [u_slot]
    simp only [List.map_append, List.map_cons, List.map_nil]
    refine hI.keys_nodup.append (List.nodup_singleton sp) ?_
    intro a ha hb
    rw [List.mem_singleton] at hb
    subst hb
    exact hspkeys ha
  · dsimp only
    intro x
    rw [u_list, u_slot, mem_listInsertAt idx.toNat sp x s.sprite_list]
    simp only [List.map_append, List.map_cons, List.map_nil, List.mem_append,
      List.mem_singleton]
    rw [hI.mem_iff x]
    tauto
  · dsimp only
    rw [u_list, u_slot, length_listInsertAt]
    simp [hI.count_list]
  · dsimp only
    rw [u_slot, u_islots]
    simp [hI.count_idx]
  · dsimp only
    rw [u_slot]
    simp only [List.map_append, List.map_cons, List.map_nil]
    refine hI.used_nodup.append (List.nodup_singleton slot) ?_
    intro a ha hb
    rw [List.mem_singleton] at hb
    subst hb
    exact f1 ha
  · dsimp only
    rw [u_free]
    exact f3
  · dsimp only
    intro n hn
    rw [u_slot] at hn
    simp only [List.map_append, List.map_cons, List.map_nil] at hn
    rw [u_free]
    rcases List.mem_append.mp hn with h | h
    · exact f4 n h
    · rw [List.mem_singleton] at h
      subst h
      exact f2
  · dsimp only
    intro n hn
    rw [u_slot] at hn
    simp only [List.map_append, List.map_cons, List.map_nil] at hn
    rw [u_bs]
    rcases List.mem_append.mp hn with h | h
    · exact f5 n h
    · rw [List.mem_singleton] at h
      subst h
      exact f7
  · dsimp only
    intro n hn
    rw [u_free] at hn
    rw [u_bs]
    exact f6 n hn
  · dsimp only
    intro n hn
    rw [u_slot] at hn
    simp only [List.map_append, List.map_cons, List.map_nil] at hn
    rw [u_islots, i4]
    rcases List.mem_append.mp hn with h | h
    · exact (mem_listInsertAt idx.toNat slot n _).mpr (Or.inr (hI.used_in_front n h))
    · rw [List.mem_singleton] at h
      subst h
      exact (mem_listInsertAt idx.toNat slot slot _).mpr (Or.inl rfl)
  · dsimp only
    rw [u_hash]
    cases hsh0 : s.spatial_hash with
    | none =>
      intro hsh h
      simp at h
    | some h0 =>
      intro hsh h
      simp only [] at h
      injection h with h
      subst h
      refine (hI.hash_nodup h0 hsh0).append (List.nodup_singleton sp) ?_
      intro a ha hb
      rw [List.mem_singleton] at hb
      subst hb
      exact hsp ((hI.hash_mem h0 hsh0 a).mp ha)
  · dsimp only
    rw [u_hash, u_list]
    cases hsh0 : s.spatial_hash with
    | none =>
      intro hsh h
      simp at h
    | some h0 =>
      intro hsh h x
      simp only [] at h
      injection h with h
      subst h
      rw [mem_listInsertAt idx.toNat sp x s.sprite_list]
      simp only [List.mem_append, List.mem_singleton]
      rw [hI.hash_mem h0 hsh0 x]
      tauto

theorem mem_set_subset {α : Type} :
    ∀ (l : List α) (p : Nat) (x y : α), y ∈ l.set p x → y = x ∨ y ∈ l
  | [], _, _, _, h => by simp at h
  | a :: rest, 0, x, y, h => by
    rw [List.set_cons_zero] at h
    rcases List.mem_cons.mp h with h | h
    · exact Or.inl h
    · exact Or.inr (List.mem_cons_of_mem a h)
  | a :: rest, p + 1, x, y, h => by
    rw [List.set_cons_succ] at h
    rcases List.mem_cons.mp h with h | h
    · exact Or.inr (by rw [h]; exact List.mem_cons_self a rest)
    · rcases mem_set_subset rest p x y h with h | h
      · exact Or.inl h
      · exact Or.inr (List.mem_cons_of_mem a h)

theorem nodup_set {α : Type} :
    ∀ (l : List α) (p : Nat) (x old : α), l.Nodup → x ∉ l → l.get? p = some old →
      (l.set p x).Nodup
  | [], _, _, _, _, _, h => by simp at h
  | a :: rest, 0, x, old, hnd, hx, _ => by
    rw [List.set_cons_zero]
    rw [List.nodup_cons] at hnd ⊢
    refine ⟨fun hmem => hx (List.mem_cons_of_mem a hmem), hnd.2⟩
  | a :: rest, p + 1, x, old, hnd, hx, h => by
    rw [List.set_cons_succ]
    rw [List.nodup_cons] at hnd ⊢
    refine ⟨?_, nodup_set rest p x old hnd.2
      (fun hmem => hx (List.mem_cons_of_mem a hmem)) (by simpa using h)⟩
    intro hmem
    rcases mem_set_subset rest p x a hmem with h' | h'
    · exact hx (by rw [← h']; exact List.mem_cons_self a rest)
    · exact hnd.1 h'

theorem mem_set_iff {α : Type} :
    ∀ (l : List α) (p : Nat) (x old y : α), l.Nodup → l.get? p = some old →
      (y ∈ l.set p x ↔ (y ∈ l ∧ y ≠ old) ∨ y = x)
  | [], _, _, _, _, _, h => by simp at h
  | a :: rest, 0, x, old, y, hnd, h => by
    simp only [List.get?_cons_zero, Option.some_inj] at h
    subst h
    rw [List.set_cons_zero]
    rw [List.nodup_cons] at hnd
    simp only [List.mem_cons]
    constructor
    · rintro (rfl | hy)
      · exact Or.inr rfl
      · exact Or.inl ⟨Or.inr hy, fun he => hnd.1 (he ▸ hy)⟩
    · rintro (⟨hy | hy, hne⟩ | rfl)
      · exact absurd hy hne
      · exact Or.inr hy
      · exact Or.inl rfl
  | a :: rest, p + 1, x, old, y, hnd, h => by
    simp only [List.get?_cons_succ] at h
    have hold : old ∈ rest := List.get?_mem h
    rw [List.set_cons_succ]
    rw [List.nodup_cons] at hnd
    have hane : a ≠ old := fun he => hnd.1 (he ▸ hold)
    simp only [List.mem_cons]
    rw [mem_set_iff rest p x old y hnd.2 h]
    constructor
    · rintro (rfl | ⟨hy, hne⟩ | rfl)
      · exact Or.inl ⟨Or.inl rfl, hane⟩
      · exact Or.inl ⟨Or.inr hy, hne⟩
      · exact Or.inr rfl
    · rintro (⟨rfl | hy, hne⟩ | rfl)
      · exact Or.inl rfl
      · exact Or.inr (Or.inl ⟨hy, hne⟩)
      · exact Or.inr (Or.inr rfl)

theorem inv_updateAll (attrs : Nat → SpriteAttr) (sp : Nat) (x : SLState)
    (hI : Inv x) : Inv (updateAll attrs sp x) := by
  refine ⟨?_, ?_, ?_, ?_, ?_, ?_, ?_, ?_, ?_, ?_, ?_, ?_, ?_, ?_, ?_, ?_, ?_, ?_,
    ?_, ?_, ?_, ?_, ?_⟩
  · rw [updateAll_buf_capacity]
    exact hI.cap_pos
  · rw [updateAll_idx_capacity]
    exact hI.icap_pos
  · rw [updateAll_sprite_buffer_slots, updateAll_buf_capacity]
    exact hI.bslots_le
  · rw [updateAll_sprite_index_slots, updateAll_idx_capacity]
    exact hI.islots_le
  · rw [updateAll_pos_len, updateAll_buf_capacity]
    exact hI.pos_len
  · rw [updateAll_size_len, updateAll_buf_capacity]
    exact hI.size_len
  · rw [updateAll_angle_len, updateAll_buf_capacity]
    exact hI.angle_len
  · rw [updateAll_color_len, updateAll_buf_capacity]
    exact hI.color_len
  · rw [updateAll_tex_len, updateAll_buf_capacity]
    exact hI.tex_len
  · rw [updateAll_sprite_index_data, updateAll_idx_capacity]
    exact hI.idx_len
  · rw [updateAll_sprite_list]
    exact hI.list_nodup
  · rw [updateAll_sprite_slot]
    exact hI.keys_nodup
  · rw [updateAll_sprite_list, updateAll_sprite_slot]
    exact hI.mem_iff
  · rw [updateAll_sprite_list, updateAll_sprite_slot]
    exact hI.count_list
  · rw [updateAll_sprite_slot, updateAll_sprite_index_slots]
    exact hI.count_idx
  · rw [updateAll_sprite_slot]
    exact hI.used_nodup
  · rw [updateAll_free_slots]
    exact hI.free_nodup
  · rw [updateAll_sprite_slot, updateAll_free_slots]
    exact hI.used_free_disj
  · rw [updateAll_sprite_slot, updateAll_sprite_buffer_slots]
    exact hI.used_lt
  · rw [updateAll_free_slots, updateAll_sprite_buffer_slots]
    exact hI.free_lt
  · rw [updateAll_sprite_slot, updateAll_sprite_index_data, updateAll_sprite_index_slots]
    exact hI.used_in_front
  · rw [updateAll_spatial_hash]
    exact hI.hash_nodup
  · rw [updateAll_spatial_hash, updateAll_sprite_list]
    exact hI.hash_mem

theorem removeS_lookup_none (sp : Nat) (s : SLState)
    (h : alookup s.sprite_slot sp = none) :
    removeS sp s = (some PyErr.valueError, s) := by
  unfold removeS
  rw [h]

theorem removeS_some (sp : Nat) (s : SLState) (slot : Nat)
    (hlk : alookup s.sprite_slot sp = some slot)
    (hmem : sp ∈ s.sprite_list) (hidx : slot ∈ s.sprite_index_data) :
    removeS sp s = (none, hashRemove sp
      { s with
        sprite_list := s.sprite_list.erase sp,
        sprite_slot := aerase s.sprite_slot sp,
        free_slots := s.free_slots ++ [slot],
        sprite_index_data := s.sprite_index_data.erase slot ++ [0],
        sprite_index_slots := s.sprite_index_slots - 1 }) := by
  unfold removeS
  rw [hlk]
  dsimp only
  rw [if_pos hmem, if_pos hidx]

theorem inv_removeS (sp : Nat) (s : SLState) (hI : Inv s) : Inv (removeS sp s).2 := by
  cases hlk : alookup s.sprite_slot sp with
  | none =>
    rw [removeS_lookup_none sp s hlk]
    exact hI
  | some slot =>
    have hkeys : sp ∈ s.sprite_slot.map Prod.fst := by
      rw [← alookup_isSome_iff, hlk]
      rfl
    have hmem : sp ∈ s.sprite_list := (hI.mem_iff sp).mpr hkeys
    have hslotmem : slot ∈ s.sprite_slot.map Prod.snd :=
      List.mem_map_of_mem Prod.snd (mem_of_alookup _ _ _ hlk)
    have hfront : slot ∈ s.sprite_index_data.take s.sprite_index_slots :=
      hI.used_in_front slot hslotmem
    have hidx : slot ∈ s.sprite_index_data := List.mem_of_mem_take hfront
    have hcnt := hI.count_idx
    have hpos : 1 ≤ s.sprite_index_slots := by
      have h1 : 0 < s.sprite_slot.length :=
        List.length_pos.mpr (List.ne_nil_of_mem (mem_of_alookup _ _ _ hlk))
      omega
    have hPlen : (s.sprite_index_data.take s.sprite_index_slots).length =
        s.sprite_index_slots := by
      rw [List.length_take]
      have h2 := hI.islots_le
      have h3 := hI.idx_len
      omega
    have herase : s.sprite_index_data.erase slot =
        (s.sprite_index_data.take s.sprite_index_slots).erase slot ++
          s.sprite_index_data.drop s.sprite_index_slots := by
      conv_lhs => rw [← List.take_append_drop s.sprite_index_slots s.sprite_index_data]
      exact List.erase_append_left _ hfront
    have hePlen : ((s.sprite_index_data.take s.sprite_index_slots).erase slot).length =
        s.sprite_index_slots - 1 := by
      rw [List.length_erase_of_mem hfront, hPlen]
    have hslotnotin : slot ∉ (aerase s.sprite_slot sp).map Prod.snd :=
      slot_not_mem_snd_aerase _ _ _ hI.used_nodup hlk
    rw [removeS_some sp s slot hlk hmem hidx, hashRemove_eq]
    refine ⟨?_, ?_, ?_, ?_, ?_, ?_, ?_, ?_, ?_, ?_, ?_, ?_, ?_, ?_, ?_, ?_, ?_, ?_,
      ?_, ?_, ?_, ?_, ?_⟩
    · dsimp only
      exact hI.cap_pos
    · dsimp only
      exact hI.icap_pos
    · dsimp only
      exact hI.bslots_le
    · dsimp only
      have := hI.islots_le
      omega
    · dsimp only
      exact hI.pos_len
    · dsimp only
      exact hI.size_len
    · dsimp only
      exact hI.angle_len
    · dsimp only
      exact hI.color_len
    · dsimp only
      exact hI.tex_len
    · dsimp only
      rw [List.length_append, List.length_erase_of_mem hidx, hI.idx_len]
      have := hI.icap_pos
      simp
      omega
    · dsimp only
      exact List.Nodup.erase sp hI.list_nodup
    · dsimp only
      rw [map_fst_aerase]
      exact List.Nodup.erase sp hI.keys_nodup
    · dsimp only
      intro x
      rw [map_fst_aerase, hI.list_nodup.mem_erase_iff, hI.keys_nodup.mem_erase_iff,
        hI.mem_iff x]
    · dsimp only
      rw [List.length_erase_of_mem hmem]
      have h4 := length_aerase _ _ _ hlk
      have h5 := hI.count_list
      omega
    · dsimp only
      have h4 := length_aerase _ _ _ hlk
      omega
    · dsimp only
      exact hI.used_nodup.sublist ((aerase_sublist s.sprite_slot sp).map Prod.snd)
    · dsimp only
      refine hI.free_nodup.append (List.nodup_singleton slot) ?_
      intro a ha hb
      rw [List.mem_singleton] at hb
      subst hb
      exact hI.used_free_disj a hslotmem ha
    · dsimp only
      intro n hn hmem'
      have hn' : n ∈ s.sprite_slot.map Prod.snd := snd_aerase_subset _ _ n hn
      have hne : n ≠ slot := fun he => hslotnotin (he ▸ hn)
      rcases List.mem_append.mp hmem' with h | h
      · exact hI.used_free_disj n hn' h
      · rw [List.mem_singleton] at h
        exact hne h
    · dsimp only
      intro n hn
      exact hI.used_lt n (snd_aerase_subset _ _ n hn)
    · dsimp only
      intro n hn
      rcases List.mem_append.mp hn with h | h
      · exact hI.free_lt n h
      · rw [List.mem_singleton] at h
        subst h
        exact hI.used_lt n hslotmem
    · dsimp only
      intro n hn
      have hn' : n ∈ s.sprite_slot.map Prod.snd := snd_aerase_subset _ _ n hn
      have hne : n ≠ slot := fun he => hslotnotin (he ▸ hn)
      rw [herase, List.append_assoc,
        List.take_left' (by rw [hePlen] : ((s.sprite_index_data.take
          s.sprite_index_slots).erase slot).length = s.sprite_index_slots - 1)]
      exact (List.mem_erase_of_ne hne).mpr (hI.used_in_front n hn')
    · dsimp only
      cases hsh0 : s.spatial_hash with
      | none =>
        intro hsh h
        simp at h
      | some h0 =>
        intro hsh h
        simp only [] at h
        injection h with h
        subst h
        exact List.Nodup.erase sp (hI.hash_nodup h0 hsh0)
    · dsimp only
      cases hsh0 : s.spatial_hash with
      | none =>
        intro hsh h
        simp at h
      | some h0 =>
        intro hsh h x
        simp only [] at h
        injection h with h
        subst h
        rw [(hI.hash_nodup h0 hsh0).mem_erase_iff, hI.list_nodup.mem_erase_iff,
          hI.hash_mem h0 hsh0 x]

theorem pyGet_decomp {α : Type} (l : List α) (i : Int) (old : α)
    (h : pyGet l i = some old) :
    ∃ p, pyIdxPos l.length i = some p ∧ l.get? p = some old ∧
      ∀ x, pySet l i x = l.set p x := by
  unfold pyGet at h
  cases hp : pyIdxPos l.length i with
  | none => rw [hp] at h; cases h
  | some p =>
    rw [hp] at h
    refine ⟨p, rfl, h, fun x => ?_⟩
    unfold pySet
    rw [hp]

theorem inv_appendS (attrs : Nat → SpriteAttr) (sp : Nat) (s : SLState) (hI : Inv s) :
    Inv (appendS attrs sp s).2 := by
  unfold appendS
  by_cases h : (alookup s.sprite_slot sp).isSome
  · rw [if_pos h]
    exact hI
  · rw [if_neg h]
    have hnone : alookup s.sprite_slot sp = none := by
      cases hh : alookup s.sprite_slot sp
      · rfl
      · rw [hh] at h
        simp at h
    exact inv_appendOk attrs sp s hI hnone

theorem inv_insertS (attrs : Nat → SpriteAttr) (idx : Int) (sp : Nat) (s : SLState)
    (hI : Inv s) (h0 : 0 ≤ idx) (hle : idx ≤ (s.sprite_list.length : Int)) :
    Inv (insertS attrs idx sp s).2 := by
  unfold insertS
  by_cases h : sp ∈ s.sprite_list
  · rw [if_pos h]
    exact hI
  · rw [if_neg h]
    exact inv_insertOk attrs idx sp s hI h h0 hle

theorem hashInsert_hash_none (sp : Nat) (x : SLState) :
    (hashInsert sp x).spatial_hash = none ↔ x.spatial_hash = none := by
  rw [hashInsert_eq]
  dsimp only
  cases x.spatial_hash <;> simp

theorem hashRemove_hash_none (sp : Nat) (x : SLState) :
    (hashRemove sp x).spatial_hash = none ↔ x.spatial_hash = none := by
  rw [hashRemove_eq]
  dsimp only
  cases x.spatial_hash <;> simp

theorem removeS_hash_none (sp : Nat) (s : SLState) :
    (removeS sp s).2.spatial_hash = none ↔ s.spatial_hash = none := by
  unfold removeS
  cases hlk : alookup s.sprite_slot sp with
  | none => exact Iff.rfl
  | some slot =>
    dsimp only
    split
    · split
      · dsimp only
        rw [hashRemove_hash_none]
      · exact Iff.rfl
    · exact Iff.rfl

theorem inv_popS (idx : Int) (s : SLState) (hI : Inv s) : Inv (popS idx s).2 := by
  unfold popS
  split
  · exact hI
  · cases hg : pyGet s.sprite_list idx with
    | none =>
      dsimp only
      exact hI
    | some sp =>
      dsimp only
      exact inv_removeS sp s hI

theorem inv_setitemS (attrs : Nat → SpriteAttr) (idx : Int) (sp : Nat) (s : SLState)
    (hI : Inv s) : Inv (setitemS attrs idx sp s).2 := by
  unfold setitemS
  by_cases hmem : sp ∈ s.sprite_list
  · rw [if_pos hmem]
    split
    · exact hI
    · exact hI
  · rw [if_neg hmem]
    cases hg : pyGet s.sprite_list idx with
    | none =>
      dsimp only
      exact hI
    | some old =>
      dsimp only
      have hold : old ∈ s.sprite_list := pyGet_mem _ _ _ hg
      have holdkeys : old ∈ s.sprite_slot.map Prod.fst := (hI.mem_iff old).mp hold
      cases hlk : alookup s.sprite_slot old with
      | none =>
        exfalso
        rw [alookup_eq_none_iff] at hlk
        exact hlk holdkeys
      | some slot =>
        dsimp only
        refine inv_updateAll attrs sp _ ?_
        obtain ⟨p, hpp, hgp, hset⟩ := pyGet_decomp s.sprite_list idx old hg
        have hspkeys : sp ∉ s.sprite_slot.map Prod.fst :=
          fun h => hmem ((hI.mem_iff sp).mpr h)
        have hslotmem : slot ∈ s.sprite_slot.map Prod.snd :=
          List.mem_map_of_mem Prod.snd (mem_of_alookup _ _ _ hlk)
        have hfront : slot ∈ s.sprite_index_data.take s.sprite_index_slots :=
          hI.used_in_front slot hslotmem
        have hslotnotin : slot ∉ (aerase s.sprite_slot old).map Prod.snd :=
          slot_not_mem_snd_aerase _ _ _ hI.used_nodup hlk
        have hsp_h0 : ∀ h0, s.spatial_hash = some h0 → sp ∉ h0 :=
          fun h0 hsh0 hin => hmem ((hI.hash_mem h0 hsh0 sp).mp hin)
        rw [hashRemove_eq, hashInsert_eq, hset sp]
        refine ⟨?_, ?_, ?_, ?_, ?_, ?_, ?_, ?_, ?_, ?_, ?_, ?_, ?_, ?_, ?_, ?_, ?_,
          ?_, ?_, ?_, ?_, ?_, ?_⟩
        · dsimp only
          exact hI.cap_pos
        · dsimp only
          exact hI.icap_pos
        · dsimp only
          exact hI.bslots_le
        · dsimp only
          exact hI.islots_le
        · dsimp only
          exact hI.pos_len
        · dsimp only
          exact hI.size_len
        · dsimp only
          exact hI.angle_len
        · dsimp only
          exact hI.color_len
        · dsimp only
          exact hI.tex_len
        · dsimp only
          exact hI.idx_len
        · dsimp only
          exact nodup_set s.sprite_list p sp old hI.list_nodup hmem hgp
        · dsimp only
          simp only [List.map_append, List.map_cons, List.map_nil, map_fst_aerase]
          refine (List.Nodup.erase old hI.keys_nodup).append (List.nodup_singleton sp) ?_
          intro a ha hb
          rw [List.mem_singleton] at hb
          subst hb
          exact hspkeys (List.erase_subset _ _ ha)
        · dsimp only
          intro x
          rw [mem_set_iff s.sprite_list p sp old x hI.list_nodup hgp]
          simp only [List.map_append, List.map_cons, List.map_nil, map_fst_aerase,
            List.mem_append, List.mem_singleton]
          rw [hI.keys_nodup.mem_erase_iff]
          rw [hI.mem_iff x]
          tauto
        · dsimp only
          rw [List.length_set, List.length_append]
          have h4 := length_aerase _ _ _ hlk
          have h5 := hI.count_list
          simp only [List.length_cons, List.length_nil]
          omega
        · dsimp only
          rw [List.length_append]
          have h4 := length_aerase _ _ _ hlk
          have h5 := hI.count_idx
          simp only [List.length_cons, List.length_nil]
          omega
        · dsimp only
          simp only [List.map_append, List.map_cons, List.map_nil]
          refine (hI.used_nodup.sublist
            ((aerase_sublist s.sprite_slot old).map Prod.snd)).append
            (List.nodup_singleton slot) ?_
          intro a ha hb
          rw [List.mem_singleton] at hb
          subst hb
          exact hslotnotin ha
        · dsimp only
          exact hI.free_nodup
        · dsimp only
          intro n hn
          simp only [List.map_append, List.map_cons, List.map_nil] at hn
          rcases List.mem_append.mp hn with h | h
          · exact hI.used_free_disj n (snd_aerase_subset _ _ n h)
          · rw [List.mem_singleton] at h
            subst h
            exact hI.used_free_disj n hslotmem
        · dsimp only
          intro n hn
          simp only [List.map_append, List.map_cons, List.map_nil] at hn
          rcases List.mem_append.mp hn with h | h
          · exact hI.used_lt n (snd_aerase_subset _ _ n h)
          · rw [List.mem_singleton] at h
            subst h
            exact hI.used_lt n hslotmem
        · dsimp only
          exact hI.free_lt
        · dsimp only
          intro n hn
          simp only [List.map_append, List.map_cons, List.map_nil] at hn
          rcases List.mem_append.mp hn with h | h
          · exact hI.used_in_front n (snd_aerase_subset _ _ n h)
          · rw [List.mem_singleton] at h
            subst h
            exact hfront
        · dsimp only
          cases hsh0 : s.spatial_hash with
          | none =>
            intro hsh h
            simp at h
          | some h0 =>
            intro hsh h
            simp only [] at h
            injection h with h
            subst h
            refine (List.Nodup.erase old (hI.hash_nodup h0 hsh0)).append
              (List.nodup_singleton sp) ?_
            intro a ha hb
            rw [List.mem_singleton] at hb
            subst hb
            exact hsp_h0 h0 hsh0 (List.erase_subset _ _ ha)
        · dsimp only
          cases hsh0 : s.spatial_hash with
          | none =>
            intro hsh h
            simp at h
          | some h0 =>
            intro hsh h x
            simp only [] at h
            injection h with h
            subst h
            rw [mem_set_iff s.sprite_list p sp old x hI.list_nodup hgp]
            simp only [List.mem_append, List.mem_singleton]
            rw [(hI.hash_nodup h0 hsh0).mem_erase_iff]
            rw [hI.hash_mem h0 hsh0 x]
            tauto

theorem inv_runOp (attrs : Nat → SpriteAttr) (op : SLOp) (s : SLState)
    (hI : Inv s) (hsafe : safeOp op s = true) : Inv (runOp attrs op s).2 := by
  cases op with
  | append sp => exact inv_appendS attrs sp s hI
  | insert idx sp =>
    unfold safeOp at hsafe
    simp only [Bool.and_eq_true, decide_eq_true_eq] at hsafe
    exact inv_insertS attrs idx sp s hI hsafe.1 hsafe.2
  | remove sp => exact inv_removeS sp s hI
  | pop idx => exact inv_popS idx s hI
  | setitem idx sp => exact inv_setitemS attrs idx sp s hI

theorem runOp_hash_none (attrs : Nat → SpriteAttr) (op : SLOp) (s : SLState) :
    (runOp attrs op s).2.spatial_hash = none ↔ s.spatial_hash = none := by
  cases op with
  | append sp =>
    show (appendS attrs sp s).2.spatial_hash = none ↔ s.spatial_hash = none
    unfold appendS
    split
    · exact Iff.rfl
    · show (appendOk attrs sp s).spatial_hash = none ↔ s.spatial_hash = none
      unfold appendOk
      rw [hashInsert_hash_none, idxAppend_spatial_hash, slAdd_spatial_hash,
        nextSlot_spatial_hash]
  | insert idx sp =>
    show (insertS attrs idx sp s).2.spatial_hash = none ↔ s.spatial_hash = none
    unfold insertS
    split
    · exact Iff.rfl
    · dsimp only
      rw [hashInsert_hash_none, idxInsert_spatial_hash, slAddIns_spatial_hash,
        nextSlot_spatial_hash]
  | remove sp => exact removeS_hash_none sp s
  | pop idx =>
    show (popS idx s).2.spatial_hash = none ↔ s.spatial_hash = none
    unfold popS
    split
    · exact Iff.rfl
    · cases hg : pyGet s.sprite_list idx with
      | none => exact Iff.rfl
      | some sp =>
        dsimp only
        exact removeS_hash_none sp s
  | setitem idx sp =>
    show (setitemS attrs idx sp s).2.spatial_hash = none ↔ s.spatial_hash = none
    unfold setitemS
    split
    · split
      · exact Iff.rfl
      · exact Iff.rfl
    · cases hg : pyGet s.sprite_list idx with
      | none => exact Iff.rfl
      | some old =>
        dsimp only
        cases hlk : alookup s.sprite_slot old with
        | none =>
          dsimp only
          rw [hashInsert_hash_none, hashRemove_hash_none]
        | some slot =>
          dsimp only
          rw [updateAll_spatial_hash]
          show (hashInsert sp _).spatial_hash = none ↔ s.spatial_hash = none
          rw [hashInsert_hash_none, hashRemove_hash_none]

theorem inv_applyOps (attrs : Nat → SpriteAttr) :
    ∀ (ops : List SLOp) (s : SLState), Inv s → safeOps attrs ops s = true →
      Inv (applyOps attrs ops s)
  | [], _, hI, _ => hI
  | op :: ops, s, hI, hsafe => by
    unfold safeOps at hsafe
    simp only [Bool.and_eq_true] at hsafe
    unfold applyOps
    exact inv_applyOps attrs ops _ (inv_runOp attrs op s hI hsafe.1) hsafe.2

theorem applyOps_hash_none (attrs : Nat → SpriteAttr) :
    ∀ (ops : List SLOp) (s : SLState),
      (applyOps attrs ops s).spatial_hash = none ↔ s.spatial_hash = none
  | [], _ => Iff.rfl
  | op :: ops, s => by
    unfold applyOps
    rw [applyOps_hash_none attrs ops _, runOp_hash_none]

theorem nextSlot_lens (s : SLState) (hL : LenInv s) : LenInv (nextSlot s).2 := by
  obtain ⟨hp, hs, ha, hc, ht⟩ := hL
  cases hf : s.free_slots with
  | cons a rest =>
    rw [nextSlot_free s a rest hf]
    exact ⟨hp, hs, ha, hc, ht⟩
  | nil =>
    rw [nextSlot_fresh s hf]
    exact growSpriteBuffers_lens _ hp hs ha hc ht

theorem updateAll_lens (attrs : Nat → SpriteAttr) (sp : Nat) (x : SLState)
    (hL : LenInv x) : LenInv (updateAll attrs sp x) := by
  obtain ⟨hp, hs, ha, hc, ht⟩ := hL
  refine ⟨?_, ?_, ?_, ?_, ?_⟩
  · rw [updateAll_pos_len, updateAll_buf_capacity]
    exact hp
  · rw [updateAll_size_len, updateAll_buf_capacity]
    exact hs
  · rw [updateAll_angle_len, updateAll_buf_capacity]
    exact ha
  · rw [updateAll_color_len, updateAll_buf_capacity]
    exact hc
  · rw [updateAll_tex_len, updateAll_buf_capacity]
    exact ht

theorem appendS_lens (attrs : Nat → SpriteAttr) (sp : Nat) (s : SLState)
    (hL : LenInv s) : LenInv (appendS attrs sp s).2 := by
  unfold appendS
  split
  · exact hL
  · obtain ⟨hp, hs, ha, hc, ht⟩ := nextSlot_lens s hL
    show LenInv (appendOk attrs sp s)
    unfold appendOk
    rw [hashInsert_eq]
    refine ⟨?_, ?_, ?_, ?_, ?_⟩
    · dsimp only
      rw [idxAppend_pos_data, idxAppend_buf_capacity, slAdd_pos_len, slAdd_buf_capacity]
      exact hp
    · dsimp only
      rw [idxAppend_size_data, idxAppend_buf_capacity, slAdd_size_len, slAdd_buf_capacity]
      exact hs
    · dsimp only
      rw [idxAppend_angle_data, idxAppend_buf_capacity, slAdd_angle_len,
        slAdd_buf_capacity]
      exact ha
    · dsimp only
      rw [idxAppend_color_data, idxAppend_buf_capacity, slAdd_color_len,
        slAdd_buf_capacity]
      exact hc
    · dsimp only
      rw [idxAppend_texture_data, idxAppend_buf_capacity, slAdd_tex_len,
        slAdd_buf_capacity]
      exact ht

theorem insertS_lens (attrs : Nat → SpriteAttr) (idx : Int) (sp : Nat) (s : SLState)
    (hL : LenInv s) : LenInv (insertS attrs idx sp s).2 := by
  unfold insertS
  split
  · exact hL
  · obtain ⟨hp, hs, ha, hc, ht⟩ := nextSlot_lens
      { s with sprite_list := pyInsert s.sprite_list idx sp } hL
    dsimp only
    rw [hashInsert_eq]
    refine ⟨?_, ?_, ?_, ?_, ?_⟩
    · dsimp only
      rw [idxInsert_pos_data, idxInsert_buf_capacity, slAddIns_pos_len,
        slAddIns_buf_capacity]
      exact hp
    · dsimp only
      rw [idxInsert_size_data, idxInsert_buf_capacity, slAddIns_size_len,
        slAddIns_buf_capacity]
      exact hs
    · dsimp only
      rw [idxInsert_angle_data, idxInsert_buf_capacity, slAddIns_angle_len,
        slAddIns_buf_capacity]
      exact ha
    · dsimp only
      rw [idxInsert_color_data, idxInsert_buf_capacity, slAddIns_color_len,
        slAddIns_buf_capacity]
      exact hc
    · dsimp only
      rw [idxInsert_texture_data, idxInsert_buf_capacity, slAddIns_tex_len,
        slAddIns_buf_capacity]
      exact ht

theorem removeS_lens (sp : Nat) (s : SLState) (hL : LenInv s) :
    LenInv (removeS sp s).2 := by
  unfold removeS
  cases hlk : alookup s.sprite_slot sp with
  | none => exact hL
  | some slot =>
    dsimp only
    split
    · split
      · dsimp only
        rw [hashRemove_eq]
        exact hL
      · exact hL
    · exact hL

theorem popS_lens (idx : Int) (s : SLState) (hL : LenInv s) : LenInv (popS idx s).2 := by
  unfold popS
  split
  · exact hL
  · cases hg : pyGet s.sprite_list idx with
    | none => exact hL
    | some sp =>
      dsimp only
      exact removeS_lens sp s hL

theorem setitemS_lens (attrs : Nat → SpriteAttr) (idx : Int) (sp : Nat) (s : SLState)
    (hL : LenInv s) : LenInv (setitemS attrs idx sp s).2 := by
  unfold setitemS
  split
  · split
    · exact hL
    · exact hL
  · cases hg : pyGet s.sprite_list idx with
    | none => exact hL
    | some old =>
      dsimp only
      cases hlk : alookup s.sprite_slot old with
      | none =>
        dsimp only
        rw [hashInsert_eq, hashRemove_eq]
        exact hL
      | some slot =>
        dsimp only
        rw [hashInsert_eq, hashRemove_eq]
        exact updateAll_lens attrs sp _ hL

theorem runOp_lens (attrs : Nat → SpriteAttr) (op : SLOp) (s : SLState)
    (hL : LenInv s) : LenInv (runOp attrs op s).2 := by
  cases op with
  | append sp => exact appendS_lens attrs sp s hL
  | insert idx sp => exact insertS_lens attrs idx sp s hL
  | remove sp => exact removeS_lens sp s hL
  | pop idx => exact popS_lens idx s hL
  | setitem idx sp => exact setitemS_lens attrs idx sp s hL

theorem applyOps_lens (attrs : Nat → SpriteAttr) :
    ∀ (ops : List SLOp) (s : SLState), LenInv s → LenInv (applyOps attrs ops s)
  | [], _, hL => hL
  | op :: ops, s, hL => by
    unfold applyOps
    exact applyOps_lens attrs ops _ (runOp_lens attrs op s hL)

theorem lenInv_newSLState (capacity : Int) (ush : Option Bool) :
    LenInv (newSLState capacity ush) :=
  ⟨List.length_replicate _ _, List.length_replicate _ _, List.length_replicate _ _,
    List.length_replicate _ _, List.length_replicate _ _⟩

theorem appendS_assigns (attrs : Nat → SpriteAttr) (sp : Nat) (s : SLState)
    (hnone : alookup s.sprite_slot sp = none) :
    alookup (appendS attrs sp s).2.sprite_slot sp = some (nextSlot s).1 := by
  unfold appendS
  rw [if_neg (by rw [hnone]; simp)]
  show alookup (appendOk attrs sp s).sprite_slot sp = some (nextSlot s).1
  unfold appendOk
  rw [hashInsert_eq]
  dsimp only
  rw [idxAppend_sprite_slot, slAdd_sprite_slot, nextSlot_sprite_slot, alookup_append,
    hnone]
  dsimp only [alookup]
  rw [if_pos rfl]

theorem insertS_assigns (attrs : Nat → SpriteAttr) (idx : Int) (sp : Nat) (s : SLState)
    (hmem : sp ∉ s.sprite_list) (hnone : alookup s.sprite_slot sp = none) :
    alookup (insertS attrs idx sp s).2.sprite_slot sp =
      some (nextSlot { s with sprite_list := pyInsert s.sprite_list idx sp }).1 := by
  unfold insertS
  rw [if_neg hmem]
  dsimp only
  rw [hashInsert_eq]
  dsimp only
  rw [idxInsert_sprite_slot, slAddIns_sprite_slot, nextSlot_sprite_slot, alookup_append]
  show (match alookup s.sprite_slot sp with
    | some v => some v
    | none => alookup [(sp, (nextSlot
        { s with sprite_list := pyInsert s.sprite_list idx sp }).1)] sp) = _
  rw [hnone]
  dsimp only [alookup]
  rw [if_pos rfl]

theorem inv_newSLState (capacity : Int) (ush : Option Bool) :
    Inv (newSLState capacity ush) := by
  have hcap : 1 ≤ initCapacity capacity := by
    unfold initCapacity
    split <;> omega
  refine ⟨?_, ?_, ?_, ?_, ?_, ?_, ?_, ?_, ?_, ?_, ?_, ?_, ?_, ?_, ?_, ?_, ?_, ?_,
    ?_, ?_, ?_, ?_, ?_⟩
  · exact hcap
  · exact hcap
  · exact Nat.zero_le _
  · exact Nat.zero_le _
  · exact List.length_replicate _ _
  · exact List.length_replicate _ _
  · exact List.length_replicate _ _
  · exact List.length_replicate _ _
  · exact List.length_replicate _ _
  · exact List.length_replicate _ _
  · exact List.nodup_nil
  · exact List.nodup_nil
  · intro x
    exact Iff.rfl
  · rfl
  · rfl
  · exact List.nodup_nil
  · exact List.nodup_nil
  · intro n hn
    simp [newSLState] at hn
  · intro n hn
    simp [newSLState] at hn
  · intro n hn
    simp [newSLState] at hn
  · intro n hn
    simp [newSLState] at hn
  · intro hsh h
    simp only [newSLState] at h
    split at h
    · injection h with h
      subst h
      exact List.nodup_nil
    · cases h
  · intro hsh h
    simp only [newSLState] at h
    split at h
    · injection h with h
      subst h
      intro x
      simp [newSLState]
    · cases h

/-- Claim C4: `SpriteList.remove` appends the removed sprite's buffer
slot to the free-slot deque; `_next_slot` pops the oldest freed slot
when the deque is nonempty and otherwise creates a fresh slot by
incrementing the used-slot counter; consequently an `append` or `insert`
performed while the deque is nonempty assigns the sprite the oldest
freed slot. -/
theorem claim_C4_free_list :
    ∀ (attrs : Nat → SpriteAttr) (s : SLState) (sp : Nat) (idx : Int)
      (slot f : Nat) (rest : List Nat),
      (alookup s.sprite_slot sp = some slot → sp ∈ s.sprite_list →
        slot ∈ s.sprite_index_data →
        (removeS sp s).2.free_slots = s.free_slots ++ [slot]) ∧
      (s.free_slots = f :: rest → nextSlot s = (f, { s with free_slots := rest })) ∧
      (s.free_slots = [] → nextSlot s = (s.sprite_buffer_slots,
        growSpriteBuffers
          { s with sprite_buffer_slots := s.sprite_buffer_slots + 1 })) ∧
      (s.free_slots = f :: rest → alookup s.sprite_slot sp = none →
        alookup (appendS attrs sp s).2.sprite_slot sp = some f) ∧
      (s.free_slots = f :: rest → sp ∉ s.sprite_list →
        alookup s.sprite_slot sp = none →
        alookup (insertS attrs idx sp s).2.sprite_slot sp = some f) := by
  intro attrs s sp idx slot f rest
  refine ⟨?_, ?_, ?_, ?_, ?_⟩
  · intro hlk hmem hidx
    rw [removeS_some sp s slot hlk hmem hidx, hashRemove_eq]
  · intro hf
    exact nextSlot_free s f rest hf
  · intro hf
    exact nextSlot_fresh s hf
  · intro hf hnone
    rw [appendS_assigns attrs sp s hnone, nextSlot_free s f rest hf]
  · intro hf hmem hnone
    rw [insertS_assigns attrs idx sp s hmem hnone,
      nextSlot_free { s with sprite_list := pyInsert s.sprite_list idx sp } f rest hf]

/-- Claim C4, witnessed on a concrete run: construct a list of capacity
4, append sprite 7 (slot 0), remove it (freeing slot 0), and then append
sprite 9: sprite 9 is assigned the freed slot 0 rather than a fresh
one. -/
theorem claim_C4_witness :
    alookup (appendS attrs0 9
      (removeS 7 (appendS attrs0 7 (newSLState 4 none)).2).2).2.sprite_slot 9 =
      some 0 :=
  (claim_C4_free_list attrs0
    (removeS 7 (appendS attrs0 7 (newSLState 4 none)).2).2 9 0 0 0 []).2.2.2.1
    (by rfl) (by rfl)

/-- Claim C5: in every state reachable from a fresh `SpriteList` by any
operation sequence, the position and size arrays hold `2 x capacity`
entries, the angle and texture arrays `capacity` entries and the color
array `4 x capacity` entries; whenever the used sprite-buffer slots have
reached the capacity, `_grow_sprite_buffers` doubles the capacity and
zero-extends every array, preserving all existing entries as a prefix,
and otherwise it leaves the state untouched. -/
theorem claim_C5_buffers :
    (∀ (attrs : Nat → SpriteAttr) (capacity : Int) (ush : Option Bool)
      (ops : List SLOp), LenInv (applyOps attrs ops (newSLState capacity ush))) ∧
    (∀ s : SLState, s.buf_capacity ≤ s.sprite_buffer_slots →
      growSpriteBuffers s =
        { s with
          buf_capacity := s.buf_capacity * 2,
          pos_data := s.pos_data ++ List.replicate (s.buf_capacity * 2) 0,
          size_data := s.size_data ++ List.replicate (s.buf_capacity * 2) 0,
          angle_data := s.angle_data ++ List.replicate s.buf_capacity 0,
          color_data := s.color_data ++ List.replicate (s.buf_capacity * 4) 0,
          texture_data := s.texture_data ++ List.replicate s.buf_capacity 0 }) ∧
    (∀ s : SLState, s.sprite_buffer_slots < s.buf_capacity →
      growSpriteBuffers s = s) := by
  refine ⟨?_, ?_, ?_⟩
  · intro attrs capacity ush ops
    exact applyOps_lens attrs ops _ (lenInv_newSLState capacity ush)
  · intro s h
    unfold growSpriteBuffers
    rw [if_neg (Nat.not_lt.mpr h)]
  · intro s h
    unfold growSpriteBuffers
    rw [if_pos h]

/-- Claim C5, witnessed at concrete states: growing a fresh list of
capacity 4 is a no-op (0 used slots < capacity 4), and growing a
capacity-1 list whose single slot is used doubles the capacity to 2. -/
theorem claim_C5_witness :
    growSpriteBuffers (newSLState 4 none) = newSLState 4 none ∧
      (growSpriteBuffers
        { newSLState 1 none with sprite_buffer_slots := 1 }).buf_capacity = 2 := by
  constructor
  · exact claim_C5_buffers.2.2 (newSLState 4 none) (by decide)
  · rw [claim_C5_buffers.2.1 { newSLState 1 none with sprite_buffer_slots := 1 }
      (by decide)]
    rfl

/-- Claim C6 counterexample: with spatial hashing enabled, append
sprites 1 and 2, insert sprite 3 at the out-of-range index 1000 (the
slot value is spliced past the end of the index buffer and immediately
popped off again) and then remove sprite 3: `array.remove` raises
`ValueError` after the sprite has left the sprite list but before the
spatial-hash removal runs, so sprite 3 stays in the spatial hash while
no longer being in the sprite list — refuting the claimed
hash-membership equivalence as stated. -/
theorem claim_C6_counterexample :
    (applyOps attrs0 badOps (newSLState 4 (some true))).spatial_hash = some [1, 2, 3] ∧
      3 ∉ (applyOps attrs0 badOps (newSLState 4 (some true))).sprite_list := by
  constructor
  · rfl
  · decide

/-- Claim C6 amended: provided every `insert` uses an index between 0
and the current sprite count (so that no operation raises in
mid-mutation), the spatial hash of a `SpriteList` built by any operation
sequence (`append`, `insert`, `remove`, `pop`, item replacement) from a
fresh list contains a sprite exactly when the sprite list does; when
spatial hashing is disabled the operations never create a spatial hash,
and construction creates one exactly when `use_spatial_hash is True`. -/
theorem claim_C6_amended :
    ∀ (attrs : Nat → SpriteAttr) (capacity : Int) (ush : Option Bool)
      (ops : List SLOp),
      safeOps attrs ops (newSLState capacity ush) = true →
      (((newSLState capacity ush).spatial_hash = none →
        (applyOps attrs ops (newSLState capacity ush)).spatial_hash = none) ∧
      (∀ hsh, (applyOps attrs ops (newSLState capacity ush)).spatial_hash = some hsh →
        ∀ x, x ∈ hsh ↔ x ∈ (applyOps attrs ops (newSLState capacity ush)).sprite_list) ∧
      ((newSLState capacity ush).spatial_hash =
        if ush = some true then some [] else none)) := by
  intro attrs capacity ush ops hsafe
  have hI := inv_applyOps attrs ops _ (inv_newSLState capacity ush) hsafe
  refine ⟨?_, hI.hash_mem, rfl⟩
  intro h
  exact (applyOps_hash_none attrs ops _).mpr h

/-- Claim C6 amended, witnessed on a concrete run: after appending
sprite 1 to a fresh spatial-hashed list, the hash content `[1]` and the
sprite list agree on the membership of sprite 1. -/
theorem claim_C6_witness :
    1 ∈ ([1] : List Nat) ↔
      1 ∈ (applyOps attrs0 [SLOp.append 1] (newSLState 4 (some true))).sprite_list :=
  ((claim_C6_amended attrs0 4 (some true) [SLOp.append 1] (by decide)).2.1
    [1] (by rfl)) 1

/-- Claim C7: when obtaining the window (or the deferred GPU
initialisation) fails inside `SpriteList.__init__`, the exception is
caught and printed — the output stream holds exactly the printed
exception — no exception propagates (the constructor is a total
function), and the constructor still returns the plain uninitialised
state; when the engine is available the list comes back initialised with
nothing printed. -/
theorem claim_C7_init_print :
    ∀ (capacity : Int) (ush : Option Bool),
      (newSpriteList capacity ush false).1 = newSLState capacity ush ∧
      (newSpriteList capacity ush false).1.initialized = false ∧
      (newSpriteList capacity ush false).2 = [PyErr.exception] ∧
      (newSpriteList capacity ush true).1.initialized = true ∧
      (newSpriteList capacity ush true).2 = [] := by
  intro capacity ush
  exact ⟨rfl, rfl, rfl, rfl, rfl⟩

/-- Claim C9: under the reachable-state invariant, `append` raises
`ValueError` exactly when the sprite already has a slot in the list and
`remove` raises `ValueError` exactly when it has none, and in both error
cases the returned `SpriteList` state is unchanged. -/
theorem claim_C9_value_errors :
    ∀ (attrs : Nat → SpriteAttr) (sp : Nat) (s : SLState), Inv s →
      ((appendS attrs sp s).1 = some PyErr.valueError ↔
        (alookup s.sprite_slot sp).isSome = true) ∧
      ((appendS attrs sp s).1 ≠ none → (appendS attrs sp s).2 = s) ∧
      ((removeS sp s).1 = some PyErr.valueError ↔
        alookup s.sprite_slot sp = none) ∧
      ((removeS sp s).1 ≠ none → (removeS sp s).2 = s) := by
  intro attrs sp s hI
  refine ⟨?_, ?_, ?_, ?_⟩
  · unfold appendS
    by_cases h : (alookup s.sprite_slot sp).isSome
    · rw [if_pos h]
      simp [h]
    · rw [if_neg h]
      simp only [Bool.not_eq_true] at h
      simp [h]
  · unfold appendS
    by_cases h : (alookup s.sprite_slot sp).isSome
    · rw [if_pos h]
      intro _
      rfl
    · rw [if_neg h]
      intro hne
      exact absurd rfl hne
  · cases hlk : alookup s.sprite_slot sp with
    | none =>
      rw [removeS_lookup_none sp s hlk]
      simp
    | some slot =>
      have hkeys : sp ∈ s.sprite_slot.map Prod.fst := by
        rw [← alookup_isSome_iff, hlk]
        rfl
      have hmem : sp ∈ s.sprite_list := (hI.mem_iff sp).mpr hkeys
      have hslotmem : slot ∈ s.sprite_slot.map Prod.snd :=
        List.mem_map_of_mem Prod.snd (mem_of_alookup _ _ _ hlk)
      have hidx : slot ∈ s.sprite_index_data :=
        List.mem_of_mem_take (hI.used_in_front slot hslotmem)
      rw [removeS_some sp s slot hlk hmem hidx]
      simp
  · cases hlk : alookup s.sprite_slot sp with
    | none =>
      rw [removeS_lookup_none sp s hlk]
      intro _
      rfl
    | some slot =>
      have hkeys : sp ∈ s.sprite_slot.map Prod.fst := by
        rw [← alookup_isSome_iff, hlk]
        rfl
      have hmem : sp ∈ s.sprite_list := (hI.mem_iff sp).mpr hkeys
      have hslotmem : slot ∈ s.sprite_slot.map Prod.snd :=
        List.mem_map_of_mem Prod.snd (mem_of_alookup _ _ _ hlk)
      have hidx : slot ∈ s.sprite_index_data :=
        List.mem_of_mem_take (hI.used_in_front slot hslotmem)
      rw [removeS_some sp s slot hlk hmem hidx]
      intro hne
      exact absurd rfl hne

/-- Claim C9, witnessed at a concrete list: removing sprite 3 from a
fresh (empty) list raises `ValueError` and leaves the state unchanged,
and appending sprite 3 twice raises `ValueError` on the second
append. -/
theorem claim_C9_witness :
    (removeS 3 (newSLState 4 none)).1 = some PyErr.valueError ∧
      (removeS 3 (newSLState 4 none)).2 = newSLState 4 none ∧
      (appendS attrs0 3 (appendS attrs0 3 (newSLState 4 none)).2).1 =
        some PyErr.valueError := by
  have h1 := claim_C9_value_errors attrs0 3 (newSLState 4 none) (inv_newSLState 4 none)
  have h2 := claim_C9_value_errors attrs0 3 (appendS attrs0 3 (newSLState 4 none)).2
    (inv_appendS attrs0 3 (newSLState 4 none) (inv_newSLState 4 none))
  have he := h1.2.2.1.mpr (by rfl)
  refine ⟨he, h1.2.2.2 (by rw [he]; simp), h2.1.mpr (by rfl)⟩

/-- Claim C10 counterexample: append sprites 1 and 2, insert sprite 3 at
the out-of-range index 1000 and remove sprite 3 again.  The insert
splices slot 2 past the end of the index buffer and immediately pops it
back off, so the later `remove` finds no occurrence of slot 2 and its
`array.remove` raises `ValueError` after the sprite list and the slot
dict have shrunk but before the used index-slot counter is decremented:
the list and dict hold 2 entries while the counter reads 3, refuting the
claimed invariant as stated. -/
theorem claim_C10_counterexample :
    ¬ C10Inv (applyOps attrs0 badOps (newSLState 4 none)) := by
  decide

/-- Claim C10 amended: every sequence of `append`, `insert`, `remove`
and `pop` operations in which each `insert` is called with an index
between 0 and the current sprite count (inclusive) — so that the
sprite-list position and the index-buffer position agree — preserves,
from a freshly constructed `SpriteList`, the invariant that the number
of sprites equals the number of slot-map entries and the used
index-buffer slot count, with pairwise distinct assigned buffer
slots. -/
theorem claim_C10_amended :
    ∀ (attrs : Nat → SpriteAttr) (capacity : Int) (ush : Option Bool)
      (ops : List SLOp),
      ops.all isBasicOp = true →
      safeOps attrs ops (newSLState capacity ush) = true →
      C10Inv (applyOps attrs ops (newSLState capacity ush)) := by
  intro attrs capacity ush ops _ hsafe
  have hI := inv_applyOps attrs ops _ (inv_newSLState capacity ush) hsafe
  exact ⟨hI.count_list, hI.count_idx, hI.used_nodup⟩

/-- Claim C10 amended, witnessed on a concrete run: append sprite 5,
insert sprite 6 at index 0, pop the last sprite and remove sprite 5; the
final state satisfies the claimed invariant. -/
theorem claim_C10_witness :
    C10Inv (applyOps attrs0
      [SLOp.append 5, SLOp.insert 0 6, SLOp.pop (-1), SLOp.remove 5]
      (newSLState 4 none)) :=
  claim_C10_amended attrs0 4 none
    [SLOp.append 5, SLOp.insert 0 6, SLOp.pop (-1), SLOp.remove 5]
    (by decide) (by decide)

end ArcadeSL
